import Mathlib

/-!
# Airtable to-do list app: a shallow embedding of `frontend/todo-app.js`

The widget is a React component tree over the Airtable Blocks SDK.  The embedding has
three layers:

* the data the host holds (`Base`, `Table`, `ViewData`, `RecordData`, `Field`), in the shape
  of `test/fixtures/simple_record_list.js`;
* the part of the SDK the widget calls (`getTableByIdIfExists`, `useRecords`, the permission
  checks, ...), which is not part of this repository;
* the components of `frontend/todo-app.js` (`TodoApp`, `Task`, `TaskDoneCheckbox`,
  `TaskDeleteButton`, `AddTaskForm`) and their event handlers, translated one to one.

A component is a function from its props (and local state) to a description of what it
renders; a handler is a function to the list of host calls it makes.  Reading a property of
`null` is a JavaScript `TypeError`, so components and handlers return `Except String`.
-/

namespace TodoList

/-! ## JavaScript values -/

/-- JavaScript values that occur as cell values, as stored configuration values and as the
property values of the objects the widget hands to the host. -/
inductive Value where
  | undefined
  | null
  | bool (b : Bool)
  | str (s : String)
  | num (n : Int)
  deriving DecidableEq, Repr

/-- The coercion `!!v` of JavaScript. -/
def Value.truthy : Value → Bool
  | .undefined => false
  | .null => false
  | .bool b => b
  | .str s => s != ""
  | .num n => n != 0

/-- JavaScript `s || d` on strings: `d` when `s` is the empty string. -/
def strOr (s d : String) : String :=
  if s = "" then d else s

/-- Reading through a reference that may be `null`: a `TypeError` when it is. -/
def deref {α : Type} (what : String) : Option α → Except String α
  | some a => .ok a
  | none => .error ("TypeError: Cannot read property of null: " ++ what)

/-! ## Host data, in the shape of `test/fixtures/simple_record_list.js` -/

/-- The `FieldType` tags that occur in the fixture; every other tag of the SDK is `other`. -/
inductive FieldType where
  | SINGLE_LINE_TEXT
  | CHECKBOX
  | other (tag : String)
  deriving DecidableEq, Repr

/-- One entry of `fields` of a table of the fixture. -/
structure Field where
  id : String
  name : String
  type : FieldType
  deriving DecidableEq, Repr

/-- One entry of `views` of a table of the fixture: `records` lists record identifiers in
the order of the view. -/
structure ViewData where
  id : String
  name : String
  recordIds : List String
  deriving DecidableEq, Repr

/-- One entry of `records` of a table of the fixture. -/
structure RecordData where
  id : String
  cellValuesByFieldId : List (String × Value)
  deriving DecidableEq, Repr

/-- One entry of `tables` of the fixture.  The first entry of the fixture's `fields` is the
primary field, so a table always has one. -/
structure Table where
  id : String
  name : String
  primaryField : Field
  otherFields : List Field
  views : List ViewData
  records : List RecordData
  deriving DecidableEq, Repr

/-- The `fields` array of a table. -/
def Table.fields (t : Table) : List Field :=
  t.primaryField :: t.otherFields

/-- The `base` of the fixture. -/
structure Base where
  tables : List Table
  deriving DecidableEq, Repr

/-- The shared key-value configuration (`globalConfig`). -/
abbrev GlobalConfig := List (String × Value)

/-! ## The SDK surface the widget uses -/

/-- Modelled from the spec: `globalConfig.get` of the SDK, which is not in this repository
(a "shared, externally persisted key-value store"; an absent key is unset). -/
def GlobalConfig.get (g : GlobalConfig) (key : String) : Value :=
  (g.lookup key).getD .undefined

/-- Modelled from the spec: writing one key of the shared configuration, the other keys
untouched. -/
def GlobalConfig.set (g : GlobalConfig) (key : String) (v : Value) : GlobalConfig :=
  (key, v) :: g.filter (fun p => p.1 != key)

/-- Modelled from the spec: `base.getTableByIdIfExists` of the SDK ("resolve table by
identifier (may return absent)"). -/
def Base.getTableByIdIfExists (b : Base) (tableId : Value) : Option Table :=
  b.tables.find? (fun t => Value.str t.id == tableId)

/-- A view as the SDK hands it out: the view entry together with its parent table. -/
structure View where
  parentTable : Table
  data : ViewData
  deriving DecidableEq, Repr

/-- The identifier of a view. -/
def View.id (v : View) : String :=
  v.data.id

/-- Modelled from the spec: `table.getViewByIdIfExists` of the SDK. -/
def Table.getViewByIdIfExists (t : Table) (viewId : Value) : Option View :=
  (t.views.find? (fun v => Value.str v.id == viewId)).map (fun d => { parentTable := t, data := d })

/-- Modelled from the spec: `table.getFieldByIdIfExists` of the SDK. -/
def Table.getFieldByIdIfExists (t : Table) (fieldId : Value) : Option Field :=
  t.fields.find? (fun f => Value.str f.id == fieldId)

/-- The cell value the host holds for a field of a record (`null` when the cell is empty). -/
def RecordData.cellValue (r : RecordData) (fieldId : String) : Value :=
  (r.cellValuesByFieldId.lookup fieldId).getD .null

/-- Modelled from the spec: a cell value formatted as a string, as the SDK does for the
display name of a record. -/
def Value.asString : Value → String
  | .undefined => ""
  | .null => ""
  | .bool b => if b then "checked" else ""
  | .str s => s
  | .num n => toString n

/-- A record as the SDK hands it out to the widget: identifier, display name and the cell
values of the fields that were requested. -/
structure Record where
  id : String
  name : String
  cellValues : List (String × Value)
  deriving DecidableEq, Repr

/-- Modelled from the spec: `record.getCellValue(field)` of the SDK. -/
def Record.getCellValue (r : Record) (field : Field) : Value :=
  (r.cellValues.lookup field.id).getD .null

/-- Modelled from the spec: the record model the SDK builds from the host data of a record:
the name is derived from the primary field, the cell values are restricted to the requested
fields. -/
def Record.load (t : Table) (fields : List Field) (d : RecordData) : Record :=
  { id := d.id
    name := (d.cellValue t.primaryField.id).asString
    cellValues := d.cellValuesByFieldId.filter (fun p => fields.any (fun f => f.id == p.1)) }

/-- The records of a view, in the order of the view, as the host holds them. -/
def View.selectRecords (v : View) : List RecordData :=
  v.data.recordIds.filterMap (fun rid => v.parentTable.records.find? (fun r => r.id == rid))

/-- Modelled from the spec: the hook `useRecords(viewOrNull, opts)` of the SDK: `null` for
`null`, otherwise the records of the view in view order, restricted to `opts.fields`. -/
def useRecords (source : Option View) (fields : List Field) : Option (List Record) :=
  source.map (fun v => v.selectRecords.map (Record.load v.parentTable fields))

/-- One entry of `records` of a mutation; `id` is absent in a permission check for a
record that does not exist yet. -/
structure RecordDef where
  id : Option String
  cellValuesByFieldId : List (String × Value)
  deriving DecidableEq, Repr

/-- Modelled from the spec: the changes to the tables, views and fields of a base that the
host can make: what `base.createTableAsync` and `table.createFieldAsync` of the SDK ask
for, and what `deleteTable`, `deleteViewAsync` and `deleteFieldAsync` of the test driver
do ("creates or destroys tables, views, or fields"). -/
inductive SchemaChange where
  | createTable (table : Table)
  | deleteTable (tableId : String)
  | createView (tableId : String) (view : ViewData)
  | deleteView (tableId : String) (viewId : String)
  | createField (tableId : String) (field : Field)
  | deleteField (tableId : String) (fieldId : String)
  deriving DecidableEq, Repr

/-- The mutations the test driver reports (`mutation.type` in the tests), and the
mutations that change the tables, views and fields. -/
inductive Mutation where
  | setMultipleRecordsCellValues (tableId : String) (records : List RecordDef)
  | deleteMultipleRecords (tableId : String) (recordIds : List String)
  | createMultipleRecords (tableId : String) (records : List RecordDef)
  | setMultipleGlobalConfigPaths (updates : List (String × Value))
  | changeSchema (change : SchemaChange)
  deriving DecidableEq, Repr

/-- The host's permission verdicts, as `testDriver.simulatePermissionCheck` sets them: a
predicate on the mutation that is being checked. -/
abbrev Permissions := Mutation → Bool

/-- Modelled from the spec: `table.checkPermissionsForUpdateRecord(record, fields)` of the
SDK, reduced to its `hasPermission` flag. -/
def Table.checkPermissionsForUpdateRecord (perm : Permissions) (t : Table) (record : Record)
    (fields : List (String × Value)) : Bool :=
  perm (.setMultipleRecordsCellValues t.id [{ id := some record.id, cellValuesByFieldId := fields }])

/-- Modelled from the spec: `table.hasPermissionToDeleteRecord(record)` of the SDK. -/
def Table.hasPermissionToDeleteRecord (perm : Permissions) (t : Table) (record : Record) : Bool :=
  perm (.deleteMultipleRecords t.id [record.id])

/-- Modelled from the spec: `table.hasPermissionToCreateRecord(fields)` of the SDK. -/
def Table.hasPermissionToCreateRecord (perm : Permissions) (t : Table)
    (fields : List (String × Value)) : Bool :=
  perm (.createMultipleRecords t.id [{ id := none, cellValuesByFieldId := fields }])

/-- The calls into the host that the code of a widget can make: the three record calls
and `expandRecord`, which `todo-app.js` uses, and the calls that change the tables, views
and fields of the base. -/
inductive Call where
  | updateRecordAsync (tableId : String) (recordId : String) (fields : List (String × Value))
  | deleteRecordAsync (tableId : String) (recordId : String)
  | createRecordAsync (tableId : String) (fields : List (String × Value))
  | expandRecord (recordId : String)
  | changeSchema (change : SchemaChange)
  deriving DecidableEq, Repr

/-! ## The components of `frontend/todo-app.js` -/

/-- What `TaskDoneCheckbox` renders: an `input type="checkbox"`. -/
structure CheckboxView where
  checked : Bool
  disabled : Bool
  deriving DecidableEq, Repr

/-- What `TaskDeleteButton` renders: a `Button`. -/
structure DeleteButtonView where
  disabled : Bool
  deriving DecidableEq, Repr

/-- The props of `Task`. -/
structure TaskProps where
  record : Record
  table : Option Table
  doneField : Option Field
  deriving DecidableEq, Repr

/-- What `Task` renders: the React key it was given, the checkbox, the label text of the
link and the delete button. -/
structure TaskView where
  key : String
  props : TaskProps
  checkbox : CheckboxView
  label : String
  deleteButton : DeleteButtonView
  deriving DecidableEq, Repr

/-- The function `onChange` of `TaskDoneCheckbox`; `checked` is `event.currentTarget.checked`. -/
def TaskDoneCheckbox.onChange (table : Option Table) (record : Record) (doneField : Option Field)
    (checked : Bool) : Except String (List Call) := do
  let t ← deref "table" table
  let df ← deref "doneField" doneField
  pure [Call.updateRecordAsync t.id record.id [(df.id, Value.bool checked)]]

/-- The component `TaskDoneCheckbox`. -/
def TaskDoneCheckbox (perm : Permissions) (table : Option Table) (record : Record)
    (doneField : Option Field) : Except String CheckboxView := do
  let t ← deref "table" table
  let df ← deref "doneField" doneField
  let permissionCheck := t.checkPermissionsForUpdateRecord perm record [(df.id, Value.undefined)]
  pure { checked := (record.getCellValue df).truthy, disabled := !permissionCheck }

/-- The function `onClick` of `TaskDeleteButton`. -/
def TaskDeleteButton.onClick (table : Option Table) (record : Record) :
    Except String (List Call) := do
  let t ← deref "table" table
  pure [Call.deleteRecordAsync t.id record.id]

/-- The component `TaskDeleteButton`. -/
def TaskDeleteButton (perm : Permissions) (table : Option Table) (record : Record) :
    Except String DeleteButtonView := do
  let t ← deref "table" table
  pure { disabled := !t.hasPermissionToDeleteRecord perm record }

/-- The `onClick` of the link of `Task`. -/
def Task.onClick (record : Record) : List Call :=
  [Call.expandRecord record.id]

/-- The component `Task`; `key` is the React key `TodoApp` gives it. -/
def Task (perm : Permissions) (key : String) (props : TaskProps) : Except String TaskView := do
  let checkbox ← TaskDoneCheckbox perm props.table props.record props.doneField
  let deleteButton ← TaskDeleteButton perm props.table props.record
  pure { key := key
         props := props
         checkbox := checkbox
         label := strOr props.record.name "Unnamed record"
         deleteButton := deleteButton }

/-- What `AddTaskForm` renders: the `Input` and the submit `Button`. -/
structure AddTaskFormView where
  table : Table
  value : String
  placeholder : String
  inputDisabled : Bool
  buttonDisabled : Bool
  deriving DecidableEq, Repr

/-- The function `onInputChange` of `AddTaskForm`: the next `taskName`; `value` is
`event.currentTarget.value`. -/
def AddTaskForm.onInputChange (value : String) : String :=
  value

/-- The function `onSubmit` of `AddTaskForm`: the calls it makes and the next `taskName`. -/
def AddTaskForm.onSubmit (table : Table) (taskName : String) : List Call × String :=
  ([Call.createRecordAsync table.id [(table.primaryField.id, Value.str taskName)]], "")

/-- The component `AddTaskForm`, with its state `taskName`. -/
def AddTaskForm (perm : Permissions) (table : Table) (taskName : String) : AddTaskFormView :=
  let isFormEnabled := table.hasPermissionToCreateRecord perm [(table.primaryField.id, Value.undefined)]
  { table := table
    value := taskName
    placeholder := "New task"
    inputDisabled := !isFormEnabled
    buttonDisabled := !isFormEnabled }

/-- The props `TodoApp` gives to `ViewPickerSynced`. -/
structure ViewPickerProps where
  table : Option Table
  globalConfigKey : String
  deriving DecidableEq, Repr

/-- The props `TodoApp` gives to `FieldPickerSynced`. -/
structure FieldPickerProps where
  table : Option Table
  globalConfigKey : String
  placeholder : String
  allowedTypes : List FieldType
  deriving DecidableEq, Repr

/-- What `TodoApp` renders, together with its constants `table`, `view` and `doneField` and
the arguments of its `useRecords` call. -/
structure TodoAppView where
  table : Option Table
  view : Option View
  doneField : Option Field
  tablePickerKey : String
  viewPicker : ViewPickerProps
  fieldPicker : FieldPickerProps
  recordsSource : Option View
  recordsFields : List Field
  tasks : Option (List TaskView)
  addTaskForm : Option AddTaskFormView
  deriving DecidableEq, Repr

/-- The component `TodoApp`.  `taskName` is the state of the `AddTaskForm` it mounts. -/
def TodoApp (perm : Permissions) (base : Base) (globalConfig : GlobalConfig) (taskName : String) :
    Except String TodoAppView := do
  let tableId := globalConfig.get "selectedTableId"
  let viewId := globalConfig.get "selectedViewId"
  let doneFieldId := globalConfig.get "selectedDoneFieldId"
  let table := base.getTableByIdIfExists tableId
  let view := match table with
    | some t => t.getViewByIdIfExists viewId
    | none => none
  let doneField := match table with
    | some t => t.getFieldByIdIfExists doneFieldId
    | none => none
  let recordsSource := match doneField with
    | some _ => view
    | none => none
  let recordsFields ← match doneField with
    | some df => do
        let t ← deref "table" table
        pure [t.primaryField, df]
    | none => pure []
  let records := useRecords recordsSource recordsFields
  let tasks ← match records with
    | some rs => do
        let rows ← rs.mapM (fun record =>
          Task perm record.id { record := record, table := table, doneField := doneField })
        pure (some rows)
    | none => pure none
  let addTaskForm := match table, doneField with
    | some t, some _ => some (AddTaskForm perm t taskName)
    | _, _ => none
  pure { table := table
         view := view
         doneField := doneField
         tablePickerKey := "selectedTableId"
         viewPicker := { table := table, globalConfigKey := "selectedViewId" }
         fieldPicker := { table := table
                          globalConfigKey := "selectedDoneFieldId"
                          placeholder := "Pick a 'done' field..."
                          allowedTypes := [FieldType.CHECKBOX] }
         recordsSource := recordsSource
         recordsFields := recordsFields
         tasks := tasks
         addTaskForm := addTaskForm }

/-- The rows of the list: none when `tasks` is `null`. -/
def TodoAppView.rows (v : TodoAppView) : List TaskView :=
  v.tasks.getD []

/-- The row `Task` renders for a record when the table and the done field are present. -/
def taskRow (perm : Permissions) (t : Table) (df : Field) (record : Record) : TaskView :=
  { key := record.id
    props := { record := record, table := some t, doneField := some df }
    checkbox :=
      { checked := (record.getCellValue df).truthy
        disabled := !t.checkPermissionsForUpdateRecord perm record [(df.id, Value.undefined)] }
    label := strOr record.name "Unnamed record"
    deleteButton := { disabled := !t.hasPermissionToDeleteRecord perm record } }

/-! ## The fixture of the tests -/

/-- The field `fldName` of the fixture, the primary field of "Groceries". -/
def fldName : Field :=
  { id := "fldName", name := "Name", type := FieldType.SINGLE_LINE_TEXT }

/-- The field `fldPurchased` of the fixture. -/
def fldPurchased : Field :=
  { id := "fldPurchased", name := "Purchased", type := FieldType.CHECKBOX }

/-- The view `viwGridView` ("Grid view") of "Groceries". -/
def viwGridView : ViewData :=
  { id := "viwGridView", name := "Grid view", recordIds := ["reca", "recb", "recc"] }

/-- The table `tblTable1` ("Groceries") of `test/fixtures/simple_record_list.js`. -/
def tblTable1 : Table :=
  { id := "tblTable1"
    name := "Groceries"
    primaryField := fldName
    otherFields := [fldPurchased]
    views := [viwGridView, { id := "viwGridView2", name := "Another grid view", recordIds := [] }]
    records :=
      [ { id := "reca"
          cellValuesByFieldId := [("fldName", Value.str "carrots"), ("fldPurchased", Value.bool false)] },
        { id := "recb"
          cellValuesByFieldId := [("fldName", Value.str "baby carrots"), ("fldPurchased", Value.bool true)] },
        { id := "recc"
          cellValuesByFieldId :=
            [("fldName", Value.str "elderly carrots"), ("fldPurchased", Value.bool false)] } ] }

/-- The view "Grid view" of "Groceries" as the SDK hands it out. -/
def gridView : View :=
  { parentTable := tblTable1, data := viwGridView }

/-- The table `tblTable2` ("Porcelain dolls") of the fixture. -/
def tblTable2 : Table :=
  { id := "tblTable2"
    name := "Porcelain dolls"
    primaryField := { id := "fldName2", name := "Name of doll", type := FieldType.SINGLE_LINE_TEXT }
    otherFields := []
    views := [{ id := "viwGridView2", name := "Grid view", recordIds := [] }]
    records := [] }

/-- The base of the fixture. -/
def fixture : Base :=
  { tables := [tblTable1, tblTable2] }

/-- The configuration after `openAsync('Groceries', 'Grid view', 'Purchased')` in the tests. -/
def groceriesConfig : GlobalConfig :=
  [ ("selectedTableId", Value.str "tblTable1"),
    ("selectedViewId", Value.str "viwGridView"),
    ("selectedDoneFieldId", Value.str "fldPurchased") ]

/-- Every permission check passes (a user with write permissions). -/
def allowAll : Permissions :=
  fun _ => true

/-- The permission check of the test without write permissions: only writes to the shared
configuration pass. -/
def onlyGlobalConfig : Permissions
  | .setMultipleGlobalConfigPaths _ => true
  | _ => false

/-! ## The host: applying the calls of the widget -/

/-- Modelled from the spec: the host writes the given cell values into a record, leaving
its other cells as they are ("update a record's cell values"). -/
def RecordData.setCellValues (r : RecordData) (cells : List (String × Value)) : RecordData :=
  { r with
    cellValuesByFieldId :=
      cells ++ r.cellValuesByFieldId.filter (fun p => !cells.any (fun c => c.1 == p.1)) }

/-- Modelled from the spec: one entry of a `setMultipleRecordsCellValues` mutation applied
to a table. -/
def Table.setRecordCellValues (t : Table) (d : RecordDef) : Table :=
  { t with
    records := t.records.map (fun r =>
      if some r.id = d.id then r.setCellValues d.cellValuesByFieldId else r) }

/-- Modelled from the spec: a `deleteMultipleRecords` mutation applied to a table: the
records leave the table and every view of it. -/
def Table.deleteRecords (t : Table) (recordIds : List String) : Table :=
  { t with
    records := t.records.filter (fun r => !recordIds.contains r.id)
    views := t.views.map (fun v =>
      { v with recordIds := v.recordIds.filter (fun rid => !recordIds.contains rid) }) }

/-- Modelled from the spec: one entry of a `createMultipleRecords` mutation applied to a
table: the record is added after the existing ones, in the table and in every view of it
("repeated creations append further rows"). -/
def Table.createRecord (t : Table) (d : RecordDef) : Table :=
  match d.id with
  | some rid =>
      { t with
        records := t.records ++ [{ id := rid, cellValuesByFieldId := d.cellValuesByFieldId }]
        views := t.views.map (fun v => { v with recordIds := v.recordIds ++ [rid] }) }
  | none => t

/-- Applies `f` to the table with the given identifier. -/
def Base.updateTable (b : Base) (tableId : String) (f : Table → Table) : Base :=
  { tables := b.tables.map (fun t => if t.id = tableId then f t else t) }

/-- Modelled from the spec: the effect of a change of the tables, views and fields on the
base; the primary field of a table cannot be deleted. -/
def Base.applySchemaChange (b : Base) : SchemaChange → Base
  | .createTable table => { tables := b.tables ++ [table] }
  | .deleteTable tableId => { tables := b.tables.filter (fun t => t.id != tableId) }
  | .createView tableId view =>
      b.updateTable tableId (fun t => { t with views := t.views ++ [view] })
  | .deleteView tableId viewId =>
      b.updateTable tableId (fun t => { t with views := t.views.filter (fun v => v.id != viewId) })
  | .createField tableId field =>
      b.updateTable tableId (fun t => { t with otherFields := t.otherFields ++ [field] })
  | .deleteField tableId fieldId =>
      b.updateTable tableId (fun t =>
        { t with otherFields := t.otherFields.filter (fun f => f.id != fieldId) })

/-- Modelled from the spec: the effect of a mutation on the data of the base. -/
def Base.applyMutation (b : Base) : Mutation → Base
  | .setMultipleRecordsCellValues tableId records =>
      b.updateTable tableId (fun t => records.foldl Table.setRecordCellValues t)
  | .deleteMultipleRecords tableId recordIds =>
      b.updateTable tableId (fun t => t.deleteRecords recordIds)
  | .createMultipleRecords tableId records =>
      b.updateTable tableId (fun t => records.foldl Table.createRecord t)
  | .setMultipleGlobalConfigPaths _ => b
  | .changeSchema change => b.applySchemaChange change

/-- Modelled from the spec: the effect of a mutation on the shared configuration. -/
def GlobalConfig.applyMutation (g : GlobalConfig) : Mutation → GlobalConfig
  | .setMultipleGlobalConfigPaths updates => updates.foldl (fun c u => GlobalConfig.set c u.1 u.2) g
  | _ => g

/-- The part of the host the widget does not control: the permission verdicts and the
identifier the host gives to a record it creates. -/
structure Host where
  perm : Permissions
  newRecordId : Base → String

/-- The state of the running app: the data of the host, the shared configuration, the
state `taskName` of the mounted `AddTaskForm`, and what the test driver observes: the
mutations (oldest first) and the identifiers of the `expandRecord` signals. -/
structure World where
  base : Base
  globalConfig : GlobalConfig
  taskName : String
  mutations : List Mutation
  expanded : List String
  deriving DecidableEq, Repr

/-- Modelled from the spec: the host takes a mutation: it is reported to the watchers and
applied to the data at once. -/
def World.emit (w : World) (m : Mutation) : World :=
  { w with
    base := w.base.applyMutation m
    globalConfig := GlobalConfig.applyMutation w.globalConfig m
    mutations := w.mutations ++ [m] }

/-- Modelled from the spec: what the host does on each call of the widget: one mutation
per record call and per change of the tables, views and fields, one signal per
`expandRecord`. -/
def Host.perform (host : Host) (w : World) : Call → World
  | .updateRecordAsync tableId recordId fields =>
      w.emit (.setMultipleRecordsCellValues tableId [{ id := some recordId, cellValuesByFieldId := fields }])
  | .deleteRecordAsync tableId recordId =>
      w.emit (.deleteMultipleRecords tableId [recordId])
  | .createRecordAsync tableId fields =>
      w.emit (.createMultipleRecords tableId
        [{ id := some (host.newRecordId w.base), cellValuesByFieldId := fields }])
  | .expandRecord recordId =>
      { w with expanded := w.expanded ++ [recordId] }
  | .changeSchema change =>
      w.emit (.changeSchema change)

/-- The calls of one handler run, in order. -/
def Host.performAll (host : Host) (w : World) (calls : List Call) : World :=
  calls.foldl host.perform w

/-- What the user can do to the rendered app. -/
inductive Event where
  | clickCheckbox (row : Nat)
  | clickDelete (row : Nat)
  | clickLabel (row : Nat)
  | typeText (chars : String)
  | submit
  | pickTable (tableId : String)
  | pickView (viewId : String)
  | pickField (fieldId : String)
  deriving DecidableEq, Repr

/-- Modelled from the spec: a synced picker writes the picked identifier under its key of
the shared configuration, when the user may write the configuration. -/
def pickerSet (host : Host) (w : World) (key : String) (pickedId : String) : World :=
  let m := Mutation.setMultipleGlobalConfigPaths [(key, Value.str pickedId)]
  if host.perm m then w.emit m else w

/-- Modelled from the spec: the browser, which is not part of this repository, delivers an
event to the handler of the control it hits; a disabled control delivers nothing ("disables
the corresponding control before the action is attempted"), and a control that is not
rendered cannot be hit.  A click on a checkbox hands `onChange` the opposite of the state
shown. -/
def dispatch (host : Host) (w : World) (view : TodoAppView) : Event → Except String World
  | .clickCheckbox i =>
      match view.rows[i]? with
      | some row =>
          if row.checkbox.disabled then pure w
          else do
            let calls ← TaskDoneCheckbox.onChange row.props.table row.props.record
              row.props.doneField (!row.checkbox.checked)
            pure (host.performAll w calls)
      | none => pure w
  | .clickDelete i =>
      match view.rows[i]? with
      | some row =>
          if row.deleteButton.disabled then pure w
          else do
            let calls ← TaskDeleteButton.onClick row.props.table row.props.record
            pure (host.performAll w calls)
      | none => pure w
  | .clickLabel i =>
      match view.rows[i]? with
      | some row => pure (host.performAll w (Task.onClick row.props.record))
      | none => pure w
  | .typeText chars =>
      match view.addTaskForm with
      | some form =>
          if form.inputDisabled then pure w
          else pure { w with taskName := AddTaskForm.onInputChange (form.value ++ chars) }
      | none => pure w
  | .submit =>
      match view.addTaskForm with
      | some form =>
          if form.buttonDisabled then pure w
          else
            let r := AddTaskForm.onSubmit form.table form.value
            pure { host.performAll w r.1 with taskName := r.2 }
      | none => pure w
  | .pickTable tableId =>
      if w.base.tables.any (fun t => t.id == tableId) then
        pure (pickerSet host w view.tablePickerKey tableId)
      else pure w
  | .pickView viewId =>
      match view.viewPicker.table with
      | some t =>
          if t.views.any (fun v => v.id == viewId) then
            pure (pickerSet host w view.viewPicker.globalConfigKey viewId)
          else pure w
      | none => pure w
  | .pickField fieldId =>
      match view.fieldPicker.table with
      | some t =>
          if t.fields.any (fun f => f.id == fieldId && view.fieldPicker.allowedTypes.contains f.type) then
            pure (pickerSet host w view.fieldPicker.globalConfigKey fieldId)
          else pure w
      | none => pure w

/-- Modelled from the spec: one turn of the event loop of the UI: the app is rendered from
the current state, the event is delivered, and the state `taskName` is dropped when the
form is no longer mounted afterwards. -/
def step (host : Host) (w : World) (e : Event) : Except String World := do
  let view ← TodoApp host.perm w.base w.globalConfig w.taskName
  let w1 ← dispatch host w view e
  let view1 ← TodoApp host.perm w1.base w1.globalConfig w1.taskName
  pure (if view1.addTaskForm.isSome then w1 else { w1 with taskName := "" })

/-- A sequence of interactions. -/
def run (host : Host) (w : World) : List Event → Except String World
  | [] => pure w
  | e :: es => do
      let w1 ← step host w e
      run host w1 es

/-- What the user sees of a row: label and checked state, as `readItems` of the tests. -/
def TaskView.item (row : TaskView) : String × Bool :=
  (row.label, row.checkbox.checked)

/-- The rows the app shows in a state (none when rendering fails). -/
def World.rows (host : Host) (w : World) : List TaskView :=
  match TodoApp host.perm w.base w.globalConfig w.taskName with
  | .ok view => view.rows
  | .error _ => []

/-- Every identifier of a record that a table or one of its views mentions. -/
def Table.usedRecordIds (t : Table) : List String :=
  t.records.map (fun r => r.id) ++ (t.views.map (fun v => v.recordIds)).flatten

/-- Every identifier of a record in use in the base. -/
def Base.usedRecordIds (b : Base) : List String :=
  (b.tables.map Table.usedRecordIds).flatten

/-- An identifier that no record of the base has: longer than each of them. -/
def Base.freshRecordId (b : Base) : String :=
  "rec" ++ "".pushn 'x' (b.usedRecordIds.map String.length).sum

/-- A host for the examples: the given permissions, and new identifiers by length. -/
def exampleHost (perm : Permissions) : Host :=
  { perm := perm, newRecordId := Base.freshRecordId }

/-- The state of the app of the tests after `openAsync('Groceries', 'Grid view', 'Purchased')`. -/
def groceriesWorld : World :=
  { base := fixture, globalConfig := groceriesConfig, taskName := "", mutations := [], expanded := [] }

/-- Modelled from the spec: a view picker or field picker that is given no table is not
shown ("hides the view/field pickers"). -/
def ViewPickerProps.hidden (p : ViewPickerProps) : Bool :=
  p.table.isNone

/-- Modelled from the spec: a field picker that is given no table is not shown. -/
def FieldPickerProps.hidden (p : FieldPickerProps) : Bool :=
  p.table.isNone

/-- The cell values a checkbox field holds: a boolean, or nothing. -/
def Value.isCheckboxValue : Value → Bool
  | .null => true
  | .bool _ => true
  | _ => false

/-- The field "Purchased" after it was turned into a text field upstream. -/
def fldPurchasedText : Field :=
  { id := "fldPurchased", name := "Purchased", type := FieldType.SINGLE_LINE_TEXT }

/-- The table "Groceries" of the fixture after the field "Purchased" was turned into a text
field upstream: same identifiers, text in the cells. -/
def convertedTable : Table :=
  { tblTable1 with
    otherFields := [fldPurchasedText]
    records :=
      [ { id := "reca"
          cellValuesByFieldId := [("fldName", Value.str "carrots"), ("fldPurchased", Value.str "no")] },
        { id := "recb"
          cellValuesByFieldId := [("fldName", Value.str "baby carrots"), ("fldPurchased", Value.str "yes")] },
        { id := "recc"
          cellValuesByFieldId := [("fldName", Value.str "elderly carrots")] } ] }

/-- The base of the fixture after `testDriver.deleteTable('tblTable1')`. -/
def tableDeletedBase : Base :=
  { tables := [tblTable2] }

/-- The base of the fixture after `testDriver.deleteFieldAsync('tblTable1', 'fldPurchased')`. -/
def fieldDeletedBase : Base :=
  { tables := [{ tblTable1 with otherFields := [] }, tblTable2] }

/-- The base of the fixture after `testDriver.deleteViewAsync('tblTable1', 'viwGridView')`. -/
def viewDeletedBase : Base :=
  { tables :=
      [ { tblTable1 with
          views := [{ id := "viwGridView2", name := "Another grid view", recordIds := [] }] },
        tblTable2 ] }

/-- The base of the fixture with `convertedTable` in place of "Groceries". -/
def convertedBase : Base :=
  { tables := [convertedTable, tblTable2] }

/-- What is displayed of a row: its key, checkbox, label and delete button. -/
def TaskView.shown (row : TaskView) : String × CheckboxView × String × DeleteButtonView :=
  (row.key, row.checkbox, row.label, row.deleteButton)

/-- The mutations that write records: creation, cell-value update and deletion. -/
def Mutation.isRecordMutation : Mutation → Bool
  | .setMultipleRecordsCellValues _ _ => true
  | .deleteMultipleRecords _ _ => true
  | .createMultipleRecords _ _ => true
  | .setMultipleGlobalConfigPaths _ => false
  | .changeSchema _ => false

/-- The mutations that change the tables, views or fields of the base. -/
def Mutation.isSchemaChange : Mutation → Bool
  | .changeSchema _ => true
  | _ => false

/-- The calls that ask for a change of the tables, views or fields of the base. -/
def Call.changesSchema : Call → Bool
  | .changeSchema _ => true
  | _ => false

/-- The events on the three pickers. -/
def Event.isPick : Event → Bool
  | .pickTable _ => true
  | .pickView _ => true
  | .pickField _ => true
  | _ => false

/-- Whether the create form is mounted in a state. -/
def World.formMounted (host : Host) (w : World) : Bool :=
  match TodoApp host.perm w.base w.globalConfig w.taskName with
  | .ok view => view.addTaskForm.isSome
  | .error _ => false

/-- Typing each text into the empty input and submitting the form, one text after the other. -/
def submissions (texts : List String) : List Event :=
  texts.flatMap (fun s => [Event.typeText s, Event.submit])

/-- The host gives a new record an identifier that is not in use. -/
def Host.Fresh (host : Host) : Prop :=
  ∀ b : Base, host.newRecordId b ∉ b.usedRecordIds

/-- A state in which the create form can add rows to the list: table, view and done field
resolve, the done field is not the primary field, and the host permits creation. -/
def World.Ready (host : Host) (w : World) (df : Field) : Prop :=
  ∃ (t : Table) (v : View),
    w.base.getTableByIdIfExists (w.globalConfig.get "selectedTableId") = some t
    ∧ t.getViewByIdIfExists (w.globalConfig.get "selectedViewId") = some v
    ∧ t.getFieldByIdIfExists (w.globalConfig.get "selectedDoneFieldId") = some df
    ∧ df.id ≠ t.primaryField.id
    ∧ t.hasPermissionToCreateRecord host.perm [(t.primaryField.id, Value.undefined)] = true

/-- The row of the record `reca` ("carrots") in the list of the tests. -/
def recaRow : TaskView :=
  taskRow allowAll tblTable1 fldPurchased
    { id := "reca"
      name := "carrots"
      cellValues := [("fldName", Value.str "carrots"), ("fldPurchased", Value.bool false)] }

/-- The row of the record `recb` ("baby carrots") in the list of the tests. -/
def recbRow : TaskView :=
  taskRow allowAll tblTable1 fldPurchased
    { id := "recb"
      name := "baby carrots"
      cellValues := [("fldName", Value.str "baby carrots"), ("fldPurchased", Value.bool true)] }

/-- The state of the app of the tests after the view "Grid view" was deleted upstream, with
a text typed into the input. -/
def viewDeletedWorld : World :=
  { base := viewDeletedBase, globalConfig := groceriesConfig, taskName := "parsnips"
    mutations := [], expanded := [] }

/-- The state of the app of the tests when the stored done-field identifier names the
primary field "Name", with a text typed into the input. -/
def nameAsDoneWorld : World :=
  { base := fixture
    globalConfig :=
      [ ("selectedTableId", Value.str "tblTable1"),
        ("selectedViewId", Value.str "viwGridView"),
        ("selectedDoneFieldId", Value.str "fldName") ]
    taskName := "parsnips"
    mutations := []
    expanded := [] }

/-- Permissions that deny every update and every deletion of the record `recb` and permit
everything else. -/
def denyRecb : Permissions
  | .setMultipleRecordsCellValues _ records => !records.any (fun r => r.id == some "recb")
  | .deleteMultipleRecords _ recordIds => !recordIds.contains "recb"
  | _ => true

/-- The update check `TaskDoneCheckbox` makes for a record: the done field with no value. -/
def updateCheck (t : Table) (df : Field) (recordId : String) : Mutation :=
  .setMultipleRecordsCellValues t.id
    [{ id := some recordId, cellValuesByFieldId := [(df.id, Value.undefined)] }]

/-- The deletion check `TaskDeleteButton` makes for a record. -/
def deleteCheck (t : Table) (recordId : String) : Mutation :=
  .deleteMultipleRecords t.id [recordId]

/-- The creation check `AddTaskForm` makes: a record with the primary field unset. -/
def createCheck (t : Table) : Mutation :=
  .createMultipleRecords t.id
    [{ id := none, cellValuesByFieldId := [(t.primaryField.id, Value.undefined)] }]

/-- The tables, views and fields of a base, without the records. -/
def Base.schema (b : Base) : List (String × String × List Field × List (String × String)) :=
  b.tables.map (fun t => (t.id, t.name, t.fields, t.views.map (fun v => (v.id, v.name))))

/-- The state of the app of the tests with "Groceries", its view "Another grid view"
(`viwGridView2`) and the field "Purchased" selected. -/
def anotherGridWorld : World :=
  { base := fixture
    globalConfig :=
      [ ("selectedTableId", Value.str "tblTable1"),
        ("selectedViewId", Value.str "viwGridView2"),
        ("selectedDoneFieldId", Value.str "fldPurchased") ]
    taskName := ""
    mutations := []
    expanded := [] }

/-- The identifier, name, fields and views of a table, without the records. -/
def Table.schema (t : Table) : String × String × List Field × List (String × String) :=
  (t.id, t.name, t.fields, t.views.map (fun v => (v.id, v.name)))

/-- The state of the app of the tests with "Groceries" and "Grid view" selected and no done
field picked yet. -/
def noFieldWorld : World :=
  { base := fixture
    globalConfig :=
      [ ("selectedTableId", Value.str "tblTable1"),
        ("selectedViewId", Value.str "viwGridView") ]
    taskName := ""
    mutations := []
    expanded := [] }

/-! ## Rendering lemmas -/

theorem mapM_ok {α β : Type} (f : α → Except String β) (g : α → β) (h : ∀ a, f a = .ok (g a)) :
    ∀ xs : List α, xs.mapM f = .ok (xs.map g)
  | [] => rfl
  | x :: xs => by
      rw [List.mapM_cons, h x, mapM_ok f g h xs]
      rfl

theorem Task_ok (perm : Permissions) (t : Table) (df : Field) (record : Record) :
    Task perm record.id { record := record, table := some t, doneField := some df }
      = .ok (taskRow perm t df record) := by
  rfl

theorem TodoApp_no_table (perm : Permissions) (base : Base) (g : GlobalConfig) (s : String)
    (ht : base.getTableByIdIfExists (g.get "selectedTableId") = none) :
    TodoApp perm base g s = .ok
      { table := none
        view := none
        doneField := none
        tablePickerKey := "selectedTableId"
        viewPicker := { table := none, globalConfigKey := "selectedViewId" }
        fieldPicker := { table := none
                         globalConfigKey := "selectedDoneFieldId"
                         placeholder := "Pick a 'done' field..."
                         allowedTypes := [FieldType.CHECKBOX] }
        recordsSource := none
        recordsFields := []
        tasks := none
        addTaskForm := none } := by
  simp only [TodoApp, ht]
  rfl

theorem TodoApp_table (perm : Permissions) (base : Base) (g : GlobalConfig) (s : String) (t : Table)
    (ht : base.getTableByIdIfExists (g.get "selectedTableId") = some t) :
    TodoApp perm base g s = .ok
      { table := some t
        view := t.getViewByIdIfExists (g.get "selectedViewId")
        doneField := t.getFieldByIdIfExists (g.get "selectedDoneFieldId")
        tablePickerKey := "selectedTableId"
        viewPicker := { table := some t, globalConfigKey := "selectedViewId" }
        fieldPicker := { table := some t
                         globalConfigKey := "selectedDoneFieldId"
                         placeholder := "Pick a 'done' field..."
                         allowedTypes := [FieldType.CHECKBOX] }
        recordsSource :=
          match t.getFieldByIdIfExists (g.get "selectedDoneFieldId") with
          | some _ => t.getViewByIdIfExists (g.get "selectedViewId")
          | none => none
        recordsFields :=
          match t.getFieldByIdIfExists (g.get "selectedDoneFieldId") with
          | some df => [t.primaryField, df]
          | none => []
        tasks :=
          match t.getFieldByIdIfExists (g.get "selectedDoneFieldId"),
            t.getViewByIdIfExists (g.get "selectedViewId") with
          | some df, some v =>
              some (v.selectRecords.map (fun d =>
                taskRow perm t df (Record.load v.parentTable [t.primaryField, df] d)))
          | _, _ => none
        addTaskForm :=
          (t.getFieldByIdIfExists (g.get "selectedDoneFieldId")).map (fun _ => AddTaskForm perm t s) } := by
  simp only [TodoApp, ht]
  cases hdf : t.getFieldByIdIfExists (g.get "selectedDoneFieldId") with
  | none => rfl
  | some df =>
    cases hv : t.getViewByIdIfExists (g.get "selectedViewId") with
    | none => rfl
    | some v =>
      simp only [deref, useRecords, Option.map, bind, Except.bind, pure, Except.pure]
      rw [mapM_ok _ _ (fun r => Task_ok perm t df r)]
      simp [List.map_map]

theorem lookup_filter_key (p : String → Bool) (k : String) (hk : p k = true) :
    ∀ l : List (String × Value), (l.filter (fun x => p x.1)).lookup k = l.lookup k
  | [] => rfl
  | (a, b) :: l => by
      by_cases hpa : p a = true
      · rw [List.filter_cons_of_pos (by simpa using hpa), List.lookup_cons, List.lookup_cons,
          lookup_filter_key p k hk l]
      · have hne : (k == a) = false := by
          cases h : k == a with
          | false => rfl
          | true =>
            have : k = a := by simpa using h
            exact absurd (this ▸ hk) hpa
        rw [List.filter_cons_of_neg (by simpa using hpa), List.lookup_cons, hne,
          lookup_filter_key p k hk l]

theorem load_getCellValue (t : Table) (fields : List Field) (d : RecordData) (f : Field)
    (hf : f ∈ fields) : (Record.load t fields d).getCellValue f = d.cellValue f.id := by
  unfold Record.getCellValue Record.load RecordData.cellValue
  simp only
  rw [lookup_filter_key (fun k => fields.any (fun f => f.id == k)) f.id]
  simp only [List.any_eq_true, beq_iff_eq]
  exact ⟨f, hf, rfl⟩

theorem getViewByIdIfExists_parent (t : Table) (viewId : Value) (v : View)
    (hv : t.getViewByIdIfExists viewId = some v) : v.parentTable = t := by
  unfold Table.getViewByIdIfExists at hv
  cases h : t.views.find? (fun v => Value.str v.id == viewId) with
  | none => simp [h] at hv
  | some d =>
    simp only [h, Option.map_some', Option.some.injEq] at hv
    rw [← hv]

/-! ## The rendered list (C1 to C4) -/

theorem truthy_of_checkboxValue (v : Value) (h : v.isCheckboxValue = true) :
    v.truthy = true ↔ v = Value.bool true := by
  cases v <;> simp_all [Value.isCheckboxValue, Value.truthy]

/-- C1 (as amended): for every selection in which the table, the view and the done field
all resolve, the app renders one row per record of the selected view, in view order: the
row count is the number of records of the view, the i-th row is keyed by the i-th record,
and its checkbox is checked exactly when the record's done-field cell value is truthy
(the coercion `!!`); for a cell value that is a boolean or empty, as a checkbox field
holds, that is exactly when the value is `true`. -/
theorem rows_follow_view_records (perm : Permissions) (base : Base) (g : GlobalConfig) (s : String)
    (t : Table) (v : View) (df : Field)
    (ht : base.getTableByIdIfExists (g.get "selectedTableId") = some t)
    (hv : t.getViewByIdIfExists (g.get "selectedViewId") = some v)
    (hdf : t.getFieldByIdIfExists (g.get "selectedDoneFieldId") = some df) :
    ∃ view, TodoApp perm base g s = .ok view
      ∧ view.rows.length = v.selectRecords.length
      ∧ view.rows.map (fun row => row.key) = v.selectRecords.map (fun d => d.id)
      ∧ ∀ (i : Nat) (row : TaskView) (d : RecordData),
          view.rows[i]? = some row → v.selectRecords[i]? = some d →
            row.props.record.id = d.id
            ∧ row.checkbox.checked = (d.cellValue df.id).truthy
            ∧ ((d.cellValue df.id).isCheckboxValue = true →
                (row.checkbox.checked = true ↔ d.cellValue df.id = Value.bool true)) := by
  refine ⟨_, TodoApp_table perm base g s t ht, ?_, ?_, ?_⟩
  · simp [TodoAppView.rows, hv, hdf]
  · simp [TodoAppView.rows, hv, hdf, List.map_map, Function.comp_def, taskRow, Record.load]
  · intro i row d hrow hd
    simp only [TodoAppView.rows, hv, hdf, Option.getD_some, List.getElem?_map, hd,
      Option.map_some', Option.some.injEq] at hrow
    subst hrow
    have hc : (Record.load v.parentTable [t.primaryField, df] d).getCellValue df
        = d.cellValue df.id :=
      load_getCellValue _ _ d df (by simp)
    refine ⟨rfl, ?_, ?_⟩
    · simp only [taskRow, hc]
    · intro hcb
      simp only [taskRow, hc]
      exact truthy_of_checkboxValue _ hcb

theorem rows_follow_view_records_witness :
    ∃ view, TodoApp allowAll fixture groceriesConfig "" = .ok view
      ∧ view.rows.length = gridView.selectRecords.length
      ∧ view.rows.map (fun row => row.key) = gridView.selectRecords.map (fun d => d.id)
      ∧ ∀ (i : Nat) (row : TaskView) (d : RecordData),
          view.rows[i]? = some row → gridView.selectRecords[i]? = some d →
            row.props.record.id = d.id
            ∧ row.checkbox.checked = (d.cellValue fldPurchased.id).truthy
            ∧ ((d.cellValue fldPurchased.id).isCheckboxValue = true →
                (row.checkbox.checked = true ↔ d.cellValue fldPurchased.id = Value.bool true)) :=
  rows_follow_view_records allowAll fixture groceriesConfig "" tblTable1 gridView fldPurchased
    (by rfl) (by rfl) (by rfl)

/-- C1 (as stated) fails: with the done field turned into a text field upstream, table,
view and done field all resolve, the first two rows are checked, and the done-field cell
values of their records are the texts "no" and "yes", not `true`. -/
theorem checked_without_true_cell :
    convertedBase.getTableByIdIfExists (GlobalConfig.get groceriesConfig "selectedTableId")
        = some convertedTable
      ∧ (convertedTable.getViewByIdIfExists (GlobalConfig.get groceriesConfig "selectedViewId")).map
          View.selectRecords = some convertedTable.records
      ∧ convertedTable.getFieldByIdIfExists (GlobalConfig.get groceriesConfig "selectedDoneFieldId")
          = some fldPurchasedText
      ∧ (TodoApp allowAll convertedBase groceriesConfig "").map
          (fun view => view.rows.map (fun row => row.checkbox.checked)) = .ok [true, true, false]
      ∧ convertedTable.records.map (fun d => d.cellValue "fldPurchased")
          = [Value.str "no", Value.str "yes", Value.null]
      ∧ convertedTable.records.map (fun d => decide (d.cellValue "fldPurchased" = Value.bool true))
          = [false, false, false] := by
  refine ⟨by rfl, by rfl, by rfl, by rfl, by rfl, by rfl⟩

/-- C2: if the stored `selectedTableId` does not resolve to a table, then whatever the
stored view and done-field identifiers are, the view and the done field are absent, the
view picker and the field picker are given no table and are hidden, `useRecords` is called
with `null` and no fields and yields no records, the list has zero rows, and no create form
is rendered. -/
theorem unresolved_table_shows_nothing (perm : Permissions) (base : Base) (g : GlobalConfig)
    (s : String) (ht : base.getTableByIdIfExists (g.get "selectedTableId") = none) :
    ∃ view, TodoApp perm base g s = .ok view
      ∧ view.table = none ∧ view.view = none ∧ view.doneField = none
      ∧ view.viewPicker.table = none ∧ view.viewPicker.hidden = true
      ∧ view.fieldPicker.table = none ∧ view.fieldPicker.hidden = true
      ∧ view.recordsSource = none ∧ view.recordsFields = []
      ∧ useRecords view.recordsSource view.recordsFields = none
      ∧ view.tasks = none ∧ view.rows.length = 0 ∧ view.addTaskForm = none :=
  ⟨_, TodoApp_no_table perm base g s ht, rfl, rfl, rfl, rfl, rfl, rfl, rfl, rfl, rfl, rfl, rfl,
    rfl, rfl⟩

theorem unresolved_table_shows_nothing_witness :
    tableDeletedBase.getTableByIdIfExists (GlobalConfig.get groceriesConfig "selectedTableId") = none
    ∧ ∃ view, TodoApp allowAll tableDeletedBase groceriesConfig "" = .ok view
      ∧ view.table = none ∧ view.view = none ∧ view.doneField = none
      ∧ view.viewPicker.table = none ∧ view.viewPicker.hidden = true
      ∧ view.fieldPicker.table = none ∧ view.fieldPicker.hidden = true
      ∧ view.recordsSource = none ∧ view.recordsFields = []
      ∧ useRecords view.recordsSource view.recordsFields = none
      ∧ view.tasks = none ∧ view.rows.length = 0 ∧ view.addTaskForm = none :=
  ⟨by rfl, unresolved_table_shows_nothing allowAll tableDeletedBase groceriesConfig "" (by rfl)⟩

/-- C3: if the table resolves but the stored view identifier or the stored done-field
identifier does not (whichever of the two), rendering raises no error and the list has
zero rows. -/
theorem unresolved_view_or_field_empty_list (perm : Permissions) (base : Base) (g : GlobalConfig)
    (s : String) (t : Table)
    (ht : base.getTableByIdIfExists (g.get "selectedTableId") = some t)
    (h : t.getViewByIdIfExists (g.get "selectedViewId") = none
      ∨ t.getFieldByIdIfExists (g.get "selectedDoneFieldId") = none) :
    ∃ view, TodoApp perm base g s = .ok view
      ∧ view.table = some t ∧ view.tasks = none ∧ view.rows.length = 0 := by
  refine ⟨_, TodoApp_table perm base g s t ht, rfl, ?_⟩
  rcases h with h | h
  · cases hdf : t.getFieldByIdIfExists (g.get "selectedDoneFieldId") <;>
      simp [TodoAppView.rows, h, hdf]
  · simp [TodoAppView.rows, h]

theorem unresolved_view_or_field_empty_list_witness :
    (∃ view, TodoApp allowAll fieldDeletedBase groceriesConfig "" = .ok view
      ∧ view.table = some { tblTable1 with otherFields := [] }
      ∧ view.tasks = none ∧ view.rows.length = 0)
    ∧ ∃ view, TodoApp allowAll viewDeletedBase groceriesConfig "" = .ok view
      ∧ view.table = some { tblTable1 with
          views := [{ id := "viwGridView2", name := "Another grid view", recordIds := [] }] }
      ∧ view.tasks = none ∧ view.rows.length = 0 :=
  ⟨unresolved_view_or_field_empty_list allowAll fieldDeletedBase groceriesConfig "" _ (by rfl)
      (Or.inr (by rfl)),
    unresolved_view_or_field_empty_list allowAll viewDeletedBase groceriesConfig "" _ (by rfl)
      (Or.inl (by rfl))⟩

theorem strOr_eq (s d : String) : (s ≠ "" → strOr s d = s) ∧ (s = "" → strOr s d = d) := by
  unfold strOr
  by_cases h : s = "" <;> simp [h]

/-- C4: in every rendered list the label of a row is the display name of its record when
that name is not empty, and the placeholder "Unnamed record" when it is empty; the display
name is the text of the record's primary-field cell, so an empty primary field gives the
placeholder. -/
theorem label_is_name_or_placeholder (perm : Permissions) (base : Base) (g : GlobalConfig)
    (s : String) (t : Table) (v : View) (df : Field)
    (ht : base.getTableByIdIfExists (g.get "selectedTableId") = some t)
    (hv : t.getViewByIdIfExists (g.get "selectedViewId") = some v)
    (hdf : t.getFieldByIdIfExists (g.get "selectedDoneFieldId") = some df) :
    ∃ view, TodoApp perm base g s = .ok view
      ∧ view.rows.length = v.selectRecords.length
      ∧ ∀ (i : Nat) (row : TaskView) (d : RecordData),
          view.rows[i]? = some row → v.selectRecords[i]? = some d →
            row.props.record.name = (d.cellValue t.primaryField.id).asString
            ∧ (row.props.record.name ≠ "" → row.label = row.props.record.name)
            ∧ (row.props.record.name = "" → row.label = "Unnamed record") := by
  refine ⟨_, TodoApp_table perm base g s t ht, ?_, ?_⟩
  · simp [TodoAppView.rows, hv, hdf]
  · intro i row d hrow hd
    simp only [TodoAppView.rows, hv, hdf, Option.getD_some, List.getElem?_map, hd,
      Option.map_some', Option.some.injEq] at hrow
    subst hrow
    refine ⟨?_, (strOr_eq _ _).1, (strOr_eq _ _).2⟩
    simp only [taskRow, Record.load, getViewByIdIfExists_parent t _ v hv]

theorem label_is_name_or_placeholder_witness :
    ∃ view, TodoApp allowAll fixture groceriesConfig "" = .ok view
      ∧ view.rows.length = gridView.selectRecords.length
      ∧ ∀ (i : Nat) (row : TaskView) (d : RecordData),
          view.rows[i]? = some row → gridView.selectRecords[i]? = some d →
            row.props.record.name = (d.cellValue tblTable1.primaryField.id).asString
            ∧ (row.props.record.name ≠ "" → row.label = row.props.record.name)
            ∧ (row.props.record.name = "" → row.label = "Unnamed record") :=
  label_is_name_or_placeholder allowAll fixture groceriesConfig "" tblTable1 gridView fldPurchased
    (by rfl) (by rfl) (by rfl)

/-! ## Interaction lemmas -/

theorem TodoApp_total (perm : Permissions) (base : Base) (g : GlobalConfig) (s : String) :
    ∃ view, TodoApp perm base g s = .ok view := by
  cases ht : base.getTableByIdIfExists (g.get "selectedTableId") with
  | none => exact ⟨_, TodoApp_no_table perm base g s ht⟩
  | some t => exact ⟨_, TodoApp_table perm base g s t ht⟩

theorem formMounted_of_resolved (host : Host) (w : World) (t : Table) (df : Field)
    (ht : w.base.getTableByIdIfExists (w.globalConfig.get "selectedTableId") = some t)
    (hdf : t.getFieldByIdIfExists (w.globalConfig.get "selectedDoneFieldId") = some df) :
    w.formMounted host = true := by
  simp [World.formMounted, TodoApp_table host.perm w.base w.globalConfig w.taskName t ht, hdf]

theorem step_of_dispatch (host : Host) (w w1 : World) (e : Event) (view : TodoAppView)
    (hr : TodoApp host.perm w.base w.globalConfig w.taskName = .ok view)
    (hd : dispatch host w view e = .ok w1) :
    step host w e = .ok (if w1.formMounted host then w1 else { w1 with taskName := "" }) := by
  obtain ⟨view1, h1⟩ := TodoApp_total host.perm w1.base w1.globalConfig w1.taskName
  simp only [step, hr, hd, h1, World.formMounted, bind, Except.bind, pure, Except.pure]

theorem find?_map_of_pred {α : Type} (p : α → Bool) (f : α → α) (hf : ∀ a, p (f a) = p a)
    (l : List α) : (l.map f).find? p = (l.find? p).map f := by
  rw [List.find?_map]
  congr 1
  congr 1
  funext a
  exact hf a

theorem getTable_updateTable (b : Base) (x : Value) (t : Table) (tableId : String)
    (f : Table → Table) (hf : ∀ a, (f a).id = a.id)
    (ht : b.getTableByIdIfExists x = some t) :
    (b.updateTable tableId f).getTableByIdIfExists x = some (if t.id = tableId then f t else t) := by
  unfold Base.getTableByIdIfExists Base.updateTable at *
  simp only
  rw [find?_map_of_pred, ht]
  · rfl
  · intro a
    by_cases h : a.id = tableId <;> simp [h, hf]


theorem createRecord_id (t : Table) (d : RecordDef) : (t.createRecord d).id = t.id := by
  unfold Table.createRecord; cases d.id <;> rfl

theorem createRecord_primaryField (t : Table) (d : RecordDef) :
    (t.createRecord d).primaryField = t.primaryField := by
  unfold Table.createRecord; cases d.id <;> rfl

theorem createRecord_getField (t : Table) (d : RecordDef) (x : Value) :
    (t.createRecord d).getFieldByIdIfExists x = t.getFieldByIdIfExists x := by
  unfold Table.createRecord; cases d.id <;> rfl

theorem getTable_create (b : Base) (x : Value) (t : Table) (d : RecordDef)
    (ht : b.getTableByIdIfExists x = some t) :
    (b.applyMutation (.createMultipleRecords t.id [d])).getTableByIdIfExists x
      = some (t.createRecord d) := by
  have h := getTable_updateTable b x t t.id (fun a => [d].foldl Table.createRecord a)
    (fun a => createRecord_id a d) ht
  simpa [Base.applyMutation] using h

theorem step_submit (host : Host) (w : World) (t : Table) (df : Field)
    (ht : w.base.getTableByIdIfExists (w.globalConfig.get "selectedTableId") = some t)
    (hdf : t.getFieldByIdIfExists (w.globalConfig.get "selectedDoneFieldId") = some df)
    (hperm : t.hasPermissionToCreateRecord host.perm [(t.primaryField.id, Value.undefined)] = true) :
    step host w Event.submit = .ok
      { base := w.base.applyMutation (.createMultipleRecords t.id
          [{ id := some (host.newRecordId w.base)
             cellValuesByFieldId := [(t.primaryField.id, Value.str w.taskName)] }])
        globalConfig := w.globalConfig
        taskName := ""
        mutations := w.mutations ++ [.createMultipleRecords t.id
          [{ id := some (host.newRecordId w.base)
             cellValuesByFieldId := [(t.primaryField.id, Value.str w.taskName)] }]]
        expanded := w.expanded } := by
  have hr := TodoApp_table host.perm w.base w.globalConfig w.taskName t ht
  rw [step_of_dispatch host w _ Event.submit _ hr
    (by simp only [dispatch, hdf, Option.map_some', AddTaskForm, hperm, Bool.not_true]; rfl)]
  simp [Host.performAll, Host.perform, World.emit, AddTaskForm.onSubmit, GlobalConfig.applyMutation]

theorem step_typeText (host : Host) (w : World) (t : Table) (df : Field) (chars : String)
    (ht : w.base.getTableByIdIfExists (w.globalConfig.get "selectedTableId") = some t)
    (hdf : t.getFieldByIdIfExists (w.globalConfig.get "selectedDoneFieldId") = some df)
    (hperm : t.hasPermissionToCreateRecord host.perm [(t.primaryField.id, Value.undefined)] = true) :
    step host w (Event.typeText chars) = .ok { w with taskName := w.taskName ++ chars } := by
  have hr := TodoApp_table host.perm w.base w.globalConfig w.taskName t ht
  rw [step_of_dispatch host w _ (Event.typeText chars) _ hr
    (by simp only [dispatch, hdf, Option.map_some', AddTaskForm, hperm, Bool.not_true]; rfl)]
  rw [if_pos]
  · rfl
  · exact formMounted_of_resolved host _ t df ht hdf

theorem rows_are_taskRows (perm : Permissions) (base : Base) (g : GlobalConfig) (s : String)
    (view : TodoAppView) (hr : TodoApp perm base g s = .ok view) :
    ∀ row ∈ view.rows, ∃ t df r, row = taskRow perm t df r := by
  intro row hrow
  cases ht : base.getTableByIdIfExists (g.get "selectedTableId") with
  | none =>
    rw [TodoApp_no_table perm base g s ht] at hr
    cases hr
    simp [TodoAppView.rows] at hrow
  | some t =>
    rw [TodoApp_table perm base g s t ht] at hr
    cases hr
    cases hdf : t.getFieldByIdIfExists (g.get "selectedDoneFieldId") with
    | none => simp [TodoAppView.rows, hdf] at hrow
    | some df =>
      cases hv : t.getViewByIdIfExists (g.get "selectedViewId") with
      | none => simp [TodoAppView.rows, hdf, hv] at hrow
      | some v =>
        simp only [TodoAppView.rows, hdf, hv, Option.getD_some, List.mem_map] at hrow
        obtain ⟨d, _, hd⟩ := hrow
        exact ⟨t, df, _, hd.symm⟩

theorem form_is_AddTaskForm (perm : Permissions) (base : Base) (g : GlobalConfig) (s : String)
    (view : TodoAppView) (hr : TodoApp perm base g s = .ok view) :
    ∀ form, view.addTaskForm = some form → ∃ t, form = AddTaskForm perm t s := by
  intro form hform
  cases ht : base.getTableByIdIfExists (g.get "selectedTableId") with
  | none =>
    rw [TodoApp_no_table perm base g s ht] at hr
    cases hr
    simp at hform
  | some t =>
    rw [TodoApp_table perm base g s t ht] at hr
    cases hr
    cases hdf : t.getFieldByIdIfExists (g.get "selectedDoneFieldId") with
    | none => simp [hdf] at hform
    | some df =>
      simp only [hdf, Option.map_some', Option.some.injEq] at hform
      exact ⟨t, hform.symm⟩

theorem pickerSet_spec (host : Host) (w : World) (key pickedId : String) :
    (pickerSet host w key pickedId).base = w.base
      ∧ ∃ emitted, (pickerSet host w key pickedId).mutations = w.mutations ++ emitted
        ∧ ∀ m ∈ emitted, m.isRecordMutation = false ∧ host.perm m = true := by
  unfold pickerSet
  simp only
  by_cases h : host.perm (Mutation.setMultipleGlobalConfigPaths [(key, Value.str pickedId)]) = true
  · rw [if_pos h]
    refine ⟨rfl, [_], rfl, ?_⟩
    intro m hm
    simp only [List.mem_singleton] at hm
    subst hm
    exact ⟨rfl, h⟩
  · rw [if_neg h]
    exact ⟨rfl, [], by simp, by simp⟩

theorem dispatch_denied (host : Host) (w : World) (view : TodoAppView)
    (hdeny : ∀ m : Mutation, m.isRecordMutation = true → host.perm m = false)
    (hr : TodoApp host.perm w.base w.globalConfig w.taskName = .ok view) (e : Event) :
    ∃ w1, dispatch host w view e = .ok w1 ∧ w1.base = w.base
      ∧ ∃ emitted, w1.mutations = w.mutations ++ emitted
        ∧ (∀ m ∈ emitted, m.isRecordMutation = false ∧ host.perm m = true)
        ∧ (e.isPick = false → emitted = []) := by
  have same : ∃ w1, (Except.ok w : Except String World) = .ok w1 ∧ w1.base = w.base
      ∧ ∃ emitted, w1.mutations = w.mutations ++ emitted
        ∧ (∀ m ∈ emitted, m.isRecordMutation = false ∧ host.perm m = true)
        ∧ (e.isPick = false → emitted = []) :=
    ⟨w, rfl, rfl, [], by simp, by simp, fun _ => rfl⟩
  have picked : ∀ key pickedId, e.isPick = true →
      ∃ w1, (Except.ok (pickerSet host w key pickedId) : Except String World) = .ok w1
        ∧ w1.base = w.base
        ∧ ∃ emitted, w1.mutations = w.mutations ++ emitted
          ∧ (∀ m ∈ emitted, m.isRecordMutation = false ∧ host.perm m = true)
          ∧ (e.isPick = false → emitted = []) := by
    intro key pickedId hp
    obtain ⟨hb, emitted, hm, hall⟩ := pickerSet_spec host w key pickedId
    exact ⟨_, rfl, hb, emitted, hm, hall, fun h => by simp [hp] at h⟩
  cases e with
  | clickCheckbox i =>
    simp only [dispatch]
    cases hrow : view.rows[i]? with
    | none => exact same
    | some row =>
      obtain ⟨t, df, r, rfl⟩ := rows_are_taskRows _ _ _ _ _ hr row (List.getElem?_mem hrow)
      have hd : (taskRow host.perm t df r).checkbox.disabled = true := by
        simp [taskRow, Table.checkPermissionsForUpdateRecord, hdeny (Mutation.setMultipleRecordsCellValues _ _) rfl]
      simp only [hd, if_true]
      exact same
  | clickDelete i =>
    simp only [dispatch]
    cases hrow : view.rows[i]? with
    | none => exact same
    | some row =>
      obtain ⟨t, df, r, rfl⟩ := rows_are_taskRows _ _ _ _ _ hr row (List.getElem?_mem hrow)
      have hd : (taskRow host.perm t df r).deleteButton.disabled = true := by
        simp [taskRow, Table.hasPermissionToDeleteRecord, hdeny (Mutation.deleteMultipleRecords _ _) rfl]
      simp only [hd, if_true]
      exact same
  | clickLabel i =>
    simp only [dispatch]
    cases hrow : view.rows[i]? with
    | none => exact same
    | some row =>
      exact ⟨_, rfl, rfl, [], by simp [Host.performAll, Task.onClick, Host.perform], by simp,
        fun _ => rfl⟩
  | typeText chars =>
    simp only [dispatch]
    cases hform : view.addTaskForm with
    | none => exact same
    | some form =>
      obtain ⟨t, rfl⟩ := form_is_AddTaskForm _ _ _ _ _ hr form hform
      have hd : (AddTaskForm host.perm t w.taskName).inputDisabled = true := by
        simp [AddTaskForm, Table.hasPermissionToCreateRecord, hdeny (Mutation.createMultipleRecords _ _) rfl]
      simp only [hd, if_true]
      exact same
  | submit =>
    simp only [dispatch]
    cases hform : view.addTaskForm with
    | none => exact same
    | some form =>
      obtain ⟨t, rfl⟩ := form_is_AddTaskForm _ _ _ _ _ hr form hform
      have hd : (AddTaskForm host.perm t w.taskName).buttonDisabled = true := by
        simp [AddTaskForm, Table.hasPermissionToCreateRecord, hdeny (Mutation.createMultipleRecords _ _) rfl]
      simp only [hd, if_true]
      exact same
  | pickTable tableId =>
    simp only [dispatch]
    split
    · exact picked _ _ rfl
    · exact same
  | pickView viewId =>
    simp only [dispatch]
    split
    · split
      · exact picked _ _ rfl
      · exact same
    · exact same
  | pickField fieldId =>
    simp only [dispatch]
    split
    · split
      · exact picked _ _ rfl
      · exact same
    · exact same

theorem run_type_submit (host : Host) (w : World) (t : Table) (df : Field) (next : String)
    (ht : w.base.getTableByIdIfExists (w.globalConfig.get "selectedTableId") = some t)
    (hdf : t.getFieldByIdIfExists (w.globalConfig.get "selectedDoneFieldId") = some df)
    (hperm : t.hasPermissionToCreateRecord host.perm [(t.primaryField.id, Value.undefined)] = true)
    (hempty : w.taskName = "") :
    run host w [Event.typeText next, Event.submit] = .ok
      { base := w.base.applyMutation (.createMultipleRecords t.id
          [{ id := some (host.newRecordId w.base)
             cellValuesByFieldId := [(t.primaryField.id, Value.str next)] }])
        globalConfig := w.globalConfig
        taskName := ""
        mutations := w.mutations ++ [.createMultipleRecords t.id
          [{ id := some (host.newRecordId w.base)
             cellValuesByFieldId := [(t.primaryField.id, Value.str next)] }]]
        expanded := w.expanded } := by
  simp only [run, bind, Except.bind, pure, Except.pure]
  rw [step_typeText host w t df next ht hdf hperm]
  simp only
  rw [step_submit host { w with taskName := w.taskName ++ next } t df ht hdf hperm]
  simp [hempty]

theorem create_keeps_form (host : Host) (t : Table) (df : Field) (d : RecordDef) (x : Value)
    (hdf : t.getFieldByIdIfExists x = some df)
    (hperm : t.hasPermissionToCreateRecord host.perm [(t.primaryField.id, Value.undefined)] = true) :
    (t.createRecord d).getFieldByIdIfExists x = some df
      ∧ (t.createRecord d).hasPermissionToCreateRecord host.perm
          [((t.createRecord d).primaryField.id, Value.undefined)] = true := by
  refine ⟨(createRecord_getField t d x).trans hdf, ?_⟩
  simpa [Table.hasPermissionToCreateRecord, createRecord_id, createRecord_primaryField] using hperm

theorem getView_of_views_map (t t1 : Table) (h : ViewData → ViewData) (hid : ∀ d, (h d).id = d.id)
    (hviews : t1.views = t.views.map h) (x : Value) :
    t1.getViewByIdIfExists x
      = (t.getViewByIdIfExists x).map (fun v => { parentTable := t1, data := h v.data }) := by
  unfold Table.getViewByIdIfExists
  rw [hviews, find?_map_of_pred (fun v => Value.str v.id == x) h (fun d => by simp [hid])]
  cases t.views.find? (fun v => Value.str v.id == x) <;> rfl

theorem selectRecords_map (t t1 : Table) (data : ViewData) (g : RecordData → RecordData)
    (hid : ∀ r, (g r).id = r.id) (hrecords : t1.records = t.records.map g) :
    (View.mk t1 data).selectRecords = (View.mk t data).selectRecords.map g := by
  unfold View.selectRecords
  simp only [hrecords]
  rw [List.map_filterMap]
  congr 1
  funext rid
  exact find?_map_of_pred (fun r => r.id == rid) g (fun r => by simp [hid]) t.records

theorem setCellValues_cellValue (r : RecordData) (k : String) (v : Value) :
    (r.setCellValues [(k, v)]).cellValue k = v := by
  simp [RecordData.setCellValues, RecordData.cellValue, List.lookup]

theorem getTable_set (b : Base) (x : Value) (t : Table) (d : RecordDef)
    (ht : b.getTableByIdIfExists x = some t) :
    (b.applyMutation (.setMultipleRecordsCellValues t.id [d])).getTableByIdIfExists x
      = some (t.setRecordCellValues d) := by
  have h := getTable_updateTable b x t t.id (fun a => [d].foldl Table.setRecordCellValues a)
    (fun a => rfl) ht
  simpa [Base.applyMutation] using h

theorem rows_of_resolved (host : Host) (w : World) (t : Table) (v : View) (df : Field)
    (ht : w.base.getTableByIdIfExists (w.globalConfig.get "selectedTableId") = some t)
    (hv : t.getViewByIdIfExists (w.globalConfig.get "selectedViewId") = some v)
    (hdf : t.getFieldByIdIfExists (w.globalConfig.get "selectedDoneFieldId") = some df) :
    w.rows host = v.selectRecords.map (fun d =>
      taskRow host.perm t df (Record.load t [t.primaryField, df] d)) := by
  simp [World.rows, TodoApp_table host.perm w.base w.globalConfig w.taskName t ht, hv, hdf,
    TodoAppView.rows, getViewByIdIfExists_parent t _ v hv]

theorem rows_of_unresolved_view (host : Host) (w : World) (t : Table)
    (ht : w.base.getTableByIdIfExists (w.globalConfig.get "selectedTableId") = some t)
    (hv : t.getViewByIdIfExists (w.globalConfig.get "selectedViewId") = none) :
    w.rows host = [] := by
  cases hdf : t.getFieldByIdIfExists (w.globalConfig.get "selectedDoneFieldId") <;>
  simp [World.rows, TodoApp_table host.perm w.base w.globalConfig w.taskName t ht, hv, hdf,
    TodoAppView.rows]

theorem view_eta (t : Table) (x : Value) (v : View) (hv : t.getViewByIdIfExists x = some v) :
    v = { parentTable := t, data := v.data } := by
  have h := getViewByIdIfExists_parent t x v hv
  cases v
  simp_all

theorem view_rows_of_resolved (perm : Permissions) (base : Base) (g : GlobalConfig) (s : String)
    (t : Table) (v : View) (df : Field) (view : TodoAppView)
    (ht : base.getTableByIdIfExists (g.get "selectedTableId") = some t)
    (hv : t.getViewByIdIfExists (g.get "selectedViewId") = some v)
    (hdf : t.getFieldByIdIfExists (g.get "selectedDoneFieldId") = some df)
    (hr : TodoApp perm base g s = .ok view) :
    view.rows = v.selectRecords.map (fun d =>
      taskRow perm t df (Record.load t [t.primaryField, df] d)) := by
  rw [TodoApp_table perm base g s t ht] at hr
  cases hr
  simp [TodoAppView.rows, hv, hdf, getViewByIdIfExists_parent t _ v hv]

theorem step_clickCheckbox (host : Host) (w : World) (t : Table) (v : View) (df : Field)
    (i : Nat) (d : RecordData)
    (ht : w.base.getTableByIdIfExists (w.globalConfig.get "selectedTableId") = some t)
    (hv : t.getViewByIdIfExists (w.globalConfig.get "selectedViewId") = some v)
    (hdf : t.getFieldByIdIfExists (w.globalConfig.get "selectedDoneFieldId") = some df)
    (hd : v.selectRecords[i]? = some d)
    (hperm : t.checkPermissionsForUpdateRecord host.perm (Record.load t [t.primaryField, df] d)
      [(df.id, Value.undefined)] = true) :
    step host w (Event.clickCheckbox i) = .ok (w.emit (.setMultipleRecordsCellValues t.id
      [{ id := some d.id
         cellValuesByFieldId := [(df.id, Value.bool (!(d.cellValue df.id).truthy))] }])) := by
  obtain ⟨view, hr⟩ := TodoApp_total host.perm w.base w.globalConfig w.taskName
  have hrows := view_rows_of_resolved host.perm w.base w.globalConfig w.taskName t v df view
    ht hv hdf hr
  have hc : (Record.load t [t.primaryField, df] d).getCellValue df = d.cellValue df.id :=
    load_getCellValue _ _ d df (by simp)
  have hdisp : dispatch host w view (Event.clickCheckbox i) = .ok (w.emit
      (.setMultipleRecordsCellValues t.id [{ id := some d.id, cellValuesByFieldId :=
        [(df.id, Value.bool (!(d.cellValue df.id).truthy))] }])) := by
    simp only [dispatch, hrows, List.getElem?_map, hd, Option.map_some']
    simp only [taskRow, hperm, hc, Bool.not_true]
    rfl
  rw [step_of_dispatch host w _ _ view hr hdisp]
  rw [if_pos]
  exact formMounted_of_resolved host _ (t.setRecordCellValues { id := some d.id, cellValuesByFieldId :=
    [(df.id, Value.bool (!(d.cellValue df.id).truthy))] }) df (getTable_set w.base _ t _ ht) hdf


theorem load_id (t : Table) (fields : List Field) (d : RecordData) :
    (Record.load t fields d).id = d.id :=
  rfl

theorem rows_after_set (host : Host) (w : World) (t : Table) (v : View) (df : Field)
    (def1 : RecordDef)
    (ht : w.base.getTableByIdIfExists (w.globalConfig.get "selectedTableId") = some t)
    (hv : t.getViewByIdIfExists (w.globalConfig.get "selectedViewId") = some v)
    (hdf : t.getFieldByIdIfExists (w.globalConfig.get "selectedDoneFieldId") = some df) :
    (w.emit (.setMultipleRecordsCellValues t.id [def1])).rows host
      = v.selectRecords.map (fun d =>
          taskRow host.perm (t.setRecordCellValues def1) df
            (Record.load (t.setRecordCellValues def1) [t.primaryField, df]
              (if some d.id = def1.id then d.setCellValues def1.cellValuesByFieldId else d))) := by
  have ht1 := getTable_set w.base (w.globalConfig.get "selectedTableId") t def1 ht
  have hv1 := getView_of_views_map t (t.setRecordCellValues def1) id (fun _ => rfl)
    (by simp [Table.setRecordCellValues]) (w.globalConfig.get "selectedViewId")
  rw [hv] at hv1
  rw [rows_of_resolved host (w.emit (.setMultipleRecordsCellValues t.id [def1])) _ _ df ht1 hv1 hdf]
  have hsel := selectRecords_map t (t.setRecordCellValues def1) v.data
    (fun r => if some r.id = def1.id then r.setCellValues def1.cellValuesByFieldId else r)
    (fun r => by dsimp only; split <;> rfl) rfl
  simp only [id]
  rw [hsel, ← view_eta t _ v hv, List.map_map]
  rfl

theorem find?_id_some (records : List RecordData) (x : String) (d : RecordData)
    (h : records.find? (fun r => r.id == x) = some d) : d.id = x := by
  simpa using List.find?_some h

theorem filterMap_filter_key (records : List RecordData) (p : String → Bool) :
    ∀ l : List String,
      (l.filter p).filterMap (fun x => (records.filter (fun r => p r.id)).find? (fun r => r.id == x))
        = (l.filterMap (fun x => records.find? (fun r => r.id == x))).filter (fun r => p r.id)
  | [] => rfl
  | x :: l => by
      have ih := filterMap_filter_key records p l
      by_cases hp : p x = true
      · have hfind : (records.filter (fun r => p r.id)).find? (fun r => r.id == x)
            = records.find? (fun r => r.id == x) := by
          rw [List.find?_filter]
          congr 1
          funext r
          by_cases hr : r.id = x
          · simp [hr, hp]
          · simp [hr]
        rw [List.filter_cons_of_pos hp, List.filterMap_cons, hfind, List.filterMap_cons, ih]
        cases hd : records.find? (fun r => r.id == x) with
        | none => rfl
        | some d =>
          have hid := find?_id_some records x d hd
          simp only []
          rw [List.filter_cons_of_pos (by simpa [hid] using hp)]
      · rw [List.filter_cons_of_neg hp, List.filterMap_cons, ih]
        cases hd : records.find? (fun r => r.id == x) with
        | none => rfl
        | some d =>
          have hid := find?_id_some records x d hd
          simp only []
          rw [List.filter_cons_of_neg (by simpa [hid] using hp)]

theorem selectRecords_delete (t : Table) (data : ViewData) (recordIds : List String) :
    (View.mk (t.deleteRecords recordIds)
        { data with recordIds := data.recordIds.filter (fun rid => !recordIds.contains rid) }).selectRecords
      = (View.mk t data).selectRecords.filter (fun r => !recordIds.contains r.id) :=
  filterMap_filter_key t.records (fun x => !recordIds.contains x) data.recordIds

theorem selectRecords_ids_nodup (v : View) (h : v.data.recordIds.Nodup) :
    (v.selectRecords.map (fun d => d.id)).Nodup := by
  unfold View.selectRecords
  rw [List.map_filterMap]
  refine List.Nodup.filterMap ?_ h
  intro a a1 b hb hb1
  simp only [Option.mem_def, Option.map_eq_some'] at hb hb1
  obtain ⟨d, hd, rfl⟩ := hb
  obtain ⟨d1, hd1, hdd⟩ := hb1
  rw [← find?_id_some _ a d hd, ← find?_id_some _ a1 d1 hd1, hdd]

theorem filter_ne_eq_eraseIdx {α : Type} (key : α → String) :
    ∀ (l : List α) (i : Nat) (a : α), (l.map key).Nodup → l[i]? = some a →
      l.filter (fun x => key x != key a) = l.eraseIdx i
  | [], _, _, _, h => by simp at h
  | x :: l, 0, a, hn, h => by
      simp only [List.getElem?_cons_zero, Option.some.injEq] at h
      subst h
      simp only [List.map_cons, List.nodup_cons, List.mem_map, not_exists, not_and] at hn
      rw [List.filter_cons_of_neg (by simp), List.eraseIdx_cons_zero, List.filter_eq_self]
      intro y hy
      simpa using hn.1 y hy
  | x :: l, i + 1, a, hn, h => by
      simp only [List.getElem?_cons_succ] at h
      simp only [List.map_cons, List.nodup_cons, List.mem_map, not_exists, not_and] at hn
      have hx : key x ≠ key a := fun hxa => hn.1 a (List.getElem?_mem h) hxa.symm
      rw [List.filter_cons_of_pos (by simpa using hx), List.eraseIdx_cons_succ,
        filter_ne_eq_eraseIdx key l i a hn.2 h]

theorem getTable_delete (b : Base) (x : Value) (t : Table) (recordIds : List String)
    (ht : b.getTableByIdIfExists x = some t) :
    (b.applyMutation (.deleteMultipleRecords t.id recordIds)).getTableByIdIfExists x
      = some (t.deleteRecords recordIds) := by
  have h := getTable_updateTable b x t t.id (fun a => a.deleteRecords recordIds)
    (fun a => rfl) ht
  simpa [Base.applyMutation] using h

theorem map_eraseIdx_eq {α β : Type} (f : α → β) :
    ∀ (l : List α) (i : Nat), (l.eraseIdx i).map f = (l.map f).eraseIdx i
  | [], _ => rfl
  | _ :: _, 0 => rfl
  | x :: l, i + 1 => by
      simp only [List.eraseIdx_cons_succ, List.map_cons, map_eraseIdx_eq f l i]

theorem rows_after_delete (host : Host) (w : World) (t : Table) (v : View) (df : Field)
    (recordIds : List String)
    (ht : w.base.getTableByIdIfExists (w.globalConfig.get "selectedTableId") = some t)
    (hv : t.getViewByIdIfExists (w.globalConfig.get "selectedViewId") = some v)
    (hdf : t.getFieldByIdIfExists (w.globalConfig.get "selectedDoneFieldId") = some df) :
    (w.emit (.deleteMultipleRecords t.id recordIds)).rows host
      = (v.selectRecords.filter (fun r => !recordIds.contains r.id)).map (fun d =>
          taskRow host.perm (t.deleteRecords recordIds) df
            (Record.load (t.deleteRecords recordIds) [t.primaryField, df] d)) := by
  have ht1 := getTable_delete w.base (w.globalConfig.get "selectedTableId") t recordIds ht
  have hv1 := getView_of_views_map t (t.deleteRecords recordIds)
    (fun d => { d with recordIds := d.recordIds.filter (fun rid => !recordIds.contains rid) })
    (fun _ => rfl) rfl (w.globalConfig.get "selectedViewId")
  rw [hv] at hv1
  rw [rows_of_resolved host (w.emit (.deleteMultipleRecords t.id recordIds)) _ _ df ht1 hv1 hdf]
  rw [selectRecords_delete, ← view_eta t _ v hv]
  rfl

theorem step_clickDelete (host : Host) (w : World) (t : Table) (v : View) (df : Field)
    (i : Nat) (d : RecordData)
    (ht : w.base.getTableByIdIfExists (w.globalConfig.get "selectedTableId") = some t)
    (hv : t.getViewByIdIfExists (w.globalConfig.get "selectedViewId") = some v)
    (hdf : t.getFieldByIdIfExists (w.globalConfig.get "selectedDoneFieldId") = some df)
    (hd : v.selectRecords[i]? = some d)
    (hperm : t.hasPermissionToDeleteRecord host.perm (Record.load t [t.primaryField, df] d) = true) :
    step host w (Event.clickDelete i) = .ok (w.emit (.deleteMultipleRecords t.id [d.id])) := by
  obtain ⟨view, hr⟩ := TodoApp_total host.perm w.base w.globalConfig w.taskName
  have hrows := view_rows_of_resolved host.perm w.base w.globalConfig w.taskName t v df view
    ht hv hdf hr
  have hdisp : dispatch host w view (Event.clickDelete i)
      = .ok (w.emit (.deleteMultipleRecords t.id [d.id])) := by
    simp only [dispatch, hrows, List.getElem?_map, hd, Option.map_some']
    simp only [taskRow, hperm, Bool.not_true]
    rfl
  rw [step_of_dispatch host w _ _ view hr hdisp]
  rw [if_pos]
  exact formMounted_of_resolved host _ (t.deleteRecords [d.id]) df
    (getTable_delete w.base _ t _ ht) hdf

theorem length_le_sum_lengths : ∀ (l : List String) (x : String), x ∈ l →
    x.length ≤ (l.map String.length).sum
  | [], _, h => by simp at h
  | y :: l, x, h => by
      simp only [List.mem_cons] at h
      simp only [List.map_cons, List.sum_cons]
      rcases h with rfl | h
      · omega
      · have := length_le_sum_lengths l x h
        omega

theorem freshRecordId_fresh (b : Base) : b.freshRecordId ∉ b.usedRecordIds := by
  intro h
  have hle := length_le_sum_lengths _ _ h
  simp [Base.freshRecordId] at hle
  have : "rec".length = 3 := by decide
  omega

theorem exampleHost_fresh (perm : Permissions) : (exampleHost perm).Fresh :=
  fun b => freshRecordId_fresh b

theorem fresh_for_view (host : Host) (hfresh : host.Fresh) (b : Base) (x y : Value) (t : Table)
    (v : View) (ht : b.getTableByIdIfExists x = some t) (hv : t.getViewByIdIfExists y = some v) :
    host.newRecordId b ∉ t.records.map (fun r => r.id)
      ∧ host.newRecordId b ∉ v.data.recordIds := by
  have hmem : t ∈ b.tables := List.mem_of_find?_eq_some ht
  have hsub : ∀ z, z ∈ t.usedRecordIds → z ∈ b.usedRecordIds := by
    intro z hz
    exact List.mem_flatten.2 ⟨t.usedRecordIds, List.mem_map.2 ⟨t, hmem, rfl⟩, hz⟩
  have hvmem : v.data ∈ t.views := by
    unfold Table.getViewByIdIfExists at hv
    cases h : t.views.find? (fun v => Value.str v.id == y) with
    | none => simp [h] at hv
    | some d =>
      simp only [h, Option.map_some', Option.some.injEq] at hv
      rw [← hv]
      exact List.mem_of_find?_eq_some h
  constructor
  · intro h
    exact hfresh b (hsub _ (List.mem_append_left _ h))
  · intro h
    refine hfresh b (hsub _ (List.mem_append_right _ ?_))
    exact List.mem_flatten.2 ⟨v.data.recordIds, List.mem_map.2 ⟨v.data, hvmem, rfl⟩, h⟩

theorem selectRecords_create (t : Table) (data : ViewData) (rid : String)
    (cells : List (String × Value))
    (h1 : rid ∉ t.records.map (fun r => r.id)) (h2 : rid ∉ data.recordIds) :
    (View.mk (t.createRecord { id := some rid, cellValuesByFieldId := cells })
        { data with recordIds := data.recordIds ++ [rid] }).selectRecords
      = (View.mk t data).selectRecords ++ [{ id := rid, cellValuesByFieldId := cells }] := by
  unfold View.selectRecords
  simp only [Table.createRecord, List.filterMap_append, List.find?_append]
  congr 1
  · apply List.filterMap_congr
    intro x hx
    have hne : ¬ rid = x := fun h => h2 (h ▸ hx)
    simp [hne]
  · have hnone : t.records.find? (fun r => r.id == rid) = none := by
      rw [List.find?_eq_none]
      intro r hr hrid
      exact h1 (List.mem_map.2 ⟨r, hr, by simpa using hrid⟩)
    simp [hnone]

theorem rows_after_create (host : Host) (w : World) (t : Table) (v : View) (df : Field)
    (rid : String) (cells : List (String × Value))
    (ht : w.base.getTableByIdIfExists (w.globalConfig.get "selectedTableId") = some t)
    (hv : t.getViewByIdIfExists (w.globalConfig.get "selectedViewId") = some v)
    (hdf : t.getFieldByIdIfExists (w.globalConfig.get "selectedDoneFieldId") = some df)
    (h1 : rid ∉ t.records.map (fun r => r.id)) (h2 : rid ∉ v.data.recordIds)
    (w1 : World)
    (hbase : w1.base = w.base.applyMutation (.createMultipleRecords t.id
      [{ id := some rid, cellValuesByFieldId := cells }]))
    (hconfig : w1.globalConfig = w.globalConfig) :
    w1.rows host
      = (v.selectRecords ++ [({ id := rid, cellValuesByFieldId := cells } : RecordData)]).map (fun d =>
          taskRow host.perm (t.createRecord { id := some rid, cellValuesByFieldId := cells }) df
            (Record.load (t.createRecord { id := some rid, cellValuesByFieldId := cells })
              [t.primaryField, df] d)) := by
  have ht1 := getTable_create w.base (w.globalConfig.get "selectedTableId") t
    { id := some rid, cellValuesByFieldId := cells } ht
  have hv1 := getView_of_views_map t (t.createRecord { id := some rid, cellValuesByFieldId := cells })
    (fun d => { d with recordIds := d.recordIds ++ [rid] })
    (fun _ => rfl) rfl (w.globalConfig.get "selectedViewId")
  rw [hv] at hv1
  rw [← hbase, ← hconfig] at ht1
  rw [← hconfig] at hv1 hdf
  rw [rows_of_resolved host w1 _ _ df ht1 hv1 hdf]
  rw [selectRecords_create t v.data rid cells h1 h2, ← view_eta t _ v hv]
  rfl

theorem new_row_item (perm : Permissions) (t t1 : Table) (df : Field) (rid s : String)
    (hp : t1.primaryField = t.primaryField) (hne : df.id ≠ t.primaryField.id) :
    (taskRow perm t1 df (Record.load t1 [t.primaryField, df]
      ({ id := rid, cellValuesByFieldId := [(t.primaryField.id, Value.str s)] } : RecordData))).item
      = (strOr s "Unnamed record", false) := by
  have hc := load_getCellValue t1 [t.primaryField, df]
    { id := rid, cellValuesByFieldId := [(t.primaryField.id, Value.str s)] } df (by simp)
  have hne1 : (df.id == t.primaryField.id) = false := by simpa using hne
  simp only [TaskView.item, taskRow, hc]
  simp [Record.load, RecordData.cellValue, List.lookup, hp, hne1, Value.asString, Value.truthy]

theorem step_submit_rows (host : Host) (hfresh : host.Fresh) (w : World) (df : Field)
    (hready : w.Ready host df) :
    ∃ w1, step host w Event.submit = .ok w1
      ∧ w1.Ready host df
      ∧ w1.taskName = ""
      ∧ (w1.rows host).map TaskView.item
          = (w.rows host).map TaskView.item ++ [(strOr w.taskName "Unnamed record", false)]
      ∧ w1.mutations.length = w.mutations.length + 1 := by
  obtain ⟨t, v, ht, hv, hdf, hne, hperm⟩ := hready
  obtain ⟨h1, h2⟩ := fresh_for_view host hfresh w.base _ _ t v ht hv
  have hstep := step_submit host w t df ht hdf hperm
  obtain ⟨w1, hw1⟩ : ∃ w1 : World, w1 =
      { base := w.base.applyMutation (.createMultipleRecords t.id
          [{ id := some (host.newRecordId w.base)
             cellValuesByFieldId := [(t.primaryField.id, Value.str w.taskName)] }])
        globalConfig := w.globalConfig
        taskName := ""
        mutations := w.mutations ++ [.createMultipleRecords t.id
          [{ id := some (host.newRecordId w.base)
             cellValuesByFieldId := [(t.primaryField.id, Value.str w.taskName)] }]]
        expanded := w.expanded } := ⟨_, rfl⟩
  rw [← hw1] at hstep
  have hbase : w1.base = w.base.applyMutation (.createMultipleRecords t.id
      [{ id := some (host.newRecordId w.base)
         cellValuesByFieldId := [(t.primaryField.id, Value.str w.taskName)] }]) := by rw [hw1]
  have hconfig : w1.globalConfig = w.globalConfig := by rw [hw1]
  have hname : w1.taskName = "" := by rw [hw1]
  have hmut : w1.mutations.length = w.mutations.length + 1 := by rw [hw1]; simp
  refine ⟨w1, hstep, ?_, hname, ?_, hmut⟩
  · obtain ⟨hdf1, hperm1⟩ := create_keeps_form host t df
      { id := some (host.newRecordId w.base)
        cellValuesByFieldId := [(t.primaryField.id, Value.str w.taskName)] } _ hdf hperm
    have ht1 := getTable_create w.base (w.globalConfig.get "selectedTableId") t
      { id := some (host.newRecordId w.base)
        cellValuesByFieldId := [(t.primaryField.id, Value.str w.taskName)] } ht
    have hv1 := getView_of_views_map t (t.createRecord
      { id := some (host.newRecordId w.base)
        cellValuesByFieldId := [(t.primaryField.id, Value.str w.taskName)] })
      (fun d => { d with recordIds := d.recordIds ++ [host.newRecordId w.base] })
      (fun _ => rfl) rfl (w.globalConfig.get "selectedViewId")
    rw [hv] at hv1
    rw [← hbase, ← hconfig] at ht1
    rw [← hconfig] at hv1 hdf1
    exact ⟨_, _, ht1, hv1, hdf1, by rw [createRecord_primaryField]; exact hne, hperm1⟩
  · rw [rows_after_create host w t v df (host.newRecordId w.base)
      [(t.primaryField.id, Value.str w.taskName)] ht hv hdf h1 h2 w1 hbase hconfig,
      rows_of_resolved host w t v df ht hv hdf]
    simp only [List.map_append, List.map_map, List.map_cons, List.map_nil]
    congr 1
    rw [new_row_item host.perm t _ df _ _ (createRecord_primaryField t _) hne]

theorem step_typeText_ready (host : Host) (w : World) (df : Field) (chars : String)
    (hready : w.Ready host df) :
    step host w (Event.typeText chars) = .ok { w with taskName := w.taskName ++ chars }
      ∧ World.Ready host { w with taskName := w.taskName ++ chars } df
      ∧ World.rows host { w with taskName := w.taskName ++ chars } = w.rows host := by
  obtain ⟨t, v, ht, hv, hdf, hne, hperm⟩ := hready
  refine ⟨step_typeText host w t df chars ht hdf hperm, ⟨t, v, ht, hv, hdf, hne, hperm⟩, ?_⟩
  rw [rows_of_resolved host w t v df ht hv hdf,
    rows_of_resolved host { w with taskName := w.taskName ++ chars } t v df ht hv hdf]

theorem run_submissions_rows (host : Host) (hfresh : host.Fresh) (df : Field) :
    ∀ (texts : List String) (w : World), w.Ready host df → w.taskName = "" →
      ∃ w1, run host w (submissions texts) = .ok w1
        ∧ (w1.rows host).map TaskView.item
            = (w.rows host).map TaskView.item
              ++ texts.map (fun s => (strOr s "Unnamed record", false))
        ∧ w1.mutations.length = w.mutations.length + texts.length
  | [], w, _, _ => ⟨w, rfl, by simp, rfl⟩
  | s :: texts, w, hready, hempty => by
      obtain ⟨htype, hready1, hrows1⟩ := step_typeText_ready host w df s hready
      obtain ⟨w2, hsub, hready2, hempty2, hrows2, hlen2⟩ :=
        step_submit_rows host hfresh _ df hready1
      obtain ⟨w3, hrun, hrows3, hlen3⟩ := run_submissions_rows host hfresh df texts w2 hready2 hempty2
      refine ⟨w3, ?_, ?_, ?_⟩
      · simp only [submissions, List.flatMap_cons, List.cons_append, List.nil_append, run, bind,
          Except.bind, htype, hsub]
        exact hrun
      · rw [hrows3, hrows2, hrows1]
        simp [hempty]
      · rw [hlen3, hlen2]
        simp
        omega

/-! ## Interactions (C5 to C10) -/

/-- C5: toggling the enabled checkbox of a row emits exactly one mutation, an update of
exactly that row's record whose cell values are exactly the done field mapped to the new
checked state (the opposite of the state shown), and nothing else changes hands: no
`expandRecord` signal, no write to the configuration or to the input text; in the list
rendered afterwards the row at the same place, with the same key, shows the new state. -/
theorem toggle_flips_and_updates (host : Host) (w : World) (t : Table) (v : View) (df : Field)
    (i : Nat) (row : TaskView)
    (ht : w.base.getTableByIdIfExists (w.globalConfig.get "selectedTableId") = some t)
    (hv : t.getViewByIdIfExists (w.globalConfig.get "selectedViewId") = some v)
    (hdf : t.getFieldByIdIfExists (w.globalConfig.get "selectedDoneFieldId") = some df)
    (hrow : (w.rows host)[i]? = some row)
    (henabled : row.checkbox.disabled = false) :
    ∃ w1, step host w (Event.clickCheckbox i) = .ok w1
      ∧ w1.mutations = w.mutations ++ [Mutation.setMultipleRecordsCellValues t.id
          [{ id := some row.props.record.id
             cellValuesByFieldId := [(df.id, Value.bool (!row.checkbox.checked))] }]]
      ∧ w1.expanded = w.expanded
      ∧ w1.globalConfig = w.globalConfig
      ∧ w1.taskName = w.taskName
      ∧ (w1.rows host).length = (w.rows host).length
      ∧ ∃ row1, (w1.rows host)[i]? = some row1
        ∧ row1.key = row.key
        ∧ row1.checkbox.checked = !row.checkbox.checked := by
  rw [rows_of_resolved host w t v df ht hv hdf, List.getElem?_map] at hrow
  cases hd : v.selectRecords[i]? with
  | none => simp [hd] at hrow
  | some d =>
    simp only [hd, Option.map_some', Option.some.injEq] at hrow
    subst hrow
    have hc : (Record.load t [t.primaryField, df] d).getCellValue df = d.cellValue df.id :=
      load_getCellValue _ _ d df (by simp)
    have hperm : t.checkPermissionsForUpdateRecord host.perm (Record.load t [t.primaryField, df] d)
        [(df.id, Value.undefined)] = true := by
      simpa [taskRow] using henabled
    refine ⟨_, step_clickCheckbox host w t v df i d ht hv hdf hd hperm, ?_, rfl, rfl, rfl, ?_⟩
    · simp [World.emit, taskRow, hc, load_id]
    · rw [rows_after_set host w t v df _ ht hv hdf, rows_of_resolved host w t v df ht hv hdf]
      refine ⟨by simp, ?_⟩
      simp only [List.getElem?_map, hd, Option.map_some', if_true]
      refine ⟨_, rfl, rfl, ?_⟩
      have hc1 := load_getCellValue (t.setRecordCellValues
          { id := some d.id, cellValuesByFieldId :=
            [(df.id, Value.bool (!(d.cellValue df.id).truthy))] })
          [t.primaryField, df] (d.setCellValues [(df.id, Value.bool (!(d.cellValue df.id).truthy))])
          df (by simp)
      simp only [taskRow, hc, hc1, setCellValues_cellValue]
      rfl

theorem toggle_flips_and_updates_witness :
    ∃ w1, step (exampleHost allowAll) groceriesWorld (Event.clickCheckbox 0) = .ok w1
      ∧ w1.mutations = groceriesWorld.mutations ++ [Mutation.setMultipleRecordsCellValues tblTable1.id
          [{ id := some recaRow.props.record.id
             cellValuesByFieldId := [(fldPurchased.id, Value.bool (!recaRow.checkbox.checked))] }]]
      ∧ w1.expanded = groceriesWorld.expanded
      ∧ w1.globalConfig = groceriesWorld.globalConfig
      ∧ w1.taskName = groceriesWorld.taskName
      ∧ (w1.rows (exampleHost allowAll)).length = (groceriesWorld.rows (exampleHost allowAll)).length
      ∧ ∃ row1, (w1.rows (exampleHost allowAll))[0]? = some row1
        ∧ row1.key = recaRow.key
        ∧ row1.checkbox.checked = !recaRow.checkbox.checked :=
  toggle_flips_and_updates (exampleHost allowAll) groceriesWorld tblTable1 gridView fldPurchased 0
    recaRow (by rfl) (by rfl) (by rfl) (by rfl) (by rfl)

/-- C6: clicking the enabled delete button of a row emits exactly one mutation, the
deletion of exactly that row's record, and (a record occurring once in the view) the list
rendered afterwards is the previous list with exactly that row removed: the other rows are
displayed as before and in the same order. -/
theorem delete_removes_row (host : Host) (w : World) (t : Table) (v : View) (df : Field)
    (i : Nat) (row : TaskView)
    (ht : w.base.getTableByIdIfExists (w.globalConfig.get "selectedTableId") = some t)
    (hv : t.getViewByIdIfExists (w.globalConfig.get "selectedViewId") = some v)
    (hdf : t.getFieldByIdIfExists (w.globalConfig.get "selectedDoneFieldId") = some df)
    (hnodup : v.data.recordIds.Nodup)
    (hrow : (w.rows host)[i]? = some row)
    (henabled : row.deleteButton.disabled = false) :
    ∃ w1, step host w (Event.clickDelete i) = .ok w1
      ∧ w1.mutations = w.mutations ++ [Mutation.deleteMultipleRecords t.id [row.props.record.id]]
      ∧ w1.expanded = w.expanded
      ∧ w1.globalConfig = w.globalConfig
      ∧ w1.taskName = w.taskName
      ∧ (w1.rows host).map TaskView.shown = ((w.rows host).map TaskView.shown).eraseIdx i := by
  rw [rows_of_resolved host w t v df ht hv hdf, List.getElem?_map] at hrow
  cases hd : v.selectRecords[i]? with
  | none => simp [hd] at hrow
  | some d =>
    simp only [hd, Option.map_some', Option.some.injEq] at hrow
    subst hrow
    have hperm : t.hasPermissionToDeleteRecord host.perm (Record.load t [t.primaryField, df] d)
        = true := by
      simpa [taskRow] using henabled
    refine ⟨_, step_clickDelete host w t v df i d ht hv hdf hd hperm, rfl, rfl, rfl, rfl, ?_⟩
    rw [rows_after_delete host w t v df _ ht hv hdf, rows_of_resolved host w t v df ht hv hdf]
    have hfilter : v.selectRecords.filter (fun r => !(List.contains [d.id] r.id))
        = v.selectRecords.eraseIdx i := by
      rw [← filter_ne_eq_eraseIdx (fun r : RecordData => r.id) v.selectRecords i d
        (selectRecords_ids_nodup v hnodup) hd]
      congr 1
      funext r
      by_cases h : r.id = d.id <;> simp [h]
    rw [hfilter, List.map_map, List.map_map, ← map_eraseIdx_eq]
    rfl

theorem delete_removes_row_witness :
    ∃ w1, step (exampleHost allowAll) groceriesWorld (Event.clickDelete 1) = .ok w1
      ∧ w1.mutations = groceriesWorld.mutations
          ++ [Mutation.deleteMultipleRecords tblTable1.id [recbRow.props.record.id]]
      ∧ w1.expanded = groceriesWorld.expanded
      ∧ w1.globalConfig = groceriesWorld.globalConfig
      ∧ w1.taskName = groceriesWorld.taskName
      ∧ (w1.rows (exampleHost allowAll)).map TaskView.shown
          = ((groceriesWorld.rows (exampleHost allowAll)).map TaskView.shown).eraseIdx 1 :=
  delete_removes_row (exampleHost allowAll) groceriesWorld tblTable1 gridView fldPurchased 1
    recbRow (by rfl) (by rfl) (by rfl) (by decide) (by rfl) (by rfl)

/-- C7: for every input text, the empty one included, `onSubmit` makes exactly one call,
a record creation on the table of the form whose cell values are exactly the primary field
mapped to that text, unchanged; and submitting the enabled form emits exactly one mutation,
the creation of one record of the selected table with exactly that cell value. -/
theorem submit_creates_one_record (host : Host) (w : World) (t : Table) (df : Field)
    (ht : w.base.getTableByIdIfExists (w.globalConfig.get "selectedTableId") = some t)
    (hdf : t.getFieldByIdIfExists (w.globalConfig.get "selectedDoneFieldId") = some df)
    (hperm : t.hasPermissionToCreateRecord host.perm [(t.primaryField.id, Value.undefined)] = true) :
    (AddTaskForm.onSubmit t w.taskName).1
        = [Call.createRecordAsync t.id [(t.primaryField.id, Value.str w.taskName)]]
      ∧ ∃ w1, step host w Event.submit = .ok w1
        ∧ w1.mutations = w.mutations ++ [Mutation.createMultipleRecords t.id
            [{ id := some (host.newRecordId w.base)
               cellValuesByFieldId := [(t.primaryField.id, Value.str w.taskName)] }]]
        ∧ w1.expanded = w.expanded
        ∧ w1.globalConfig = w.globalConfig :=
  ⟨rfl, _, step_submit host w t df ht hdf hperm, rfl, rfl, rfl⟩

theorem submit_creates_one_record_witness :
    (AddTaskForm.onSubmit tblTable1 "  parsnips ").1
        = [Call.createRecordAsync "tblTable1" [("fldName", Value.str "  parsnips ")]]
      ∧ ∃ w1, step (exampleHost allowAll) { groceriesWorld with taskName := "  parsnips " }
            Event.submit = .ok w1
        ∧ w1.mutations = [Mutation.createMultipleRecords "tblTable1"
            [{ id := some (Base.freshRecordId fixture)
               cellValuesByFieldId := [("fldName", Value.str "  parsnips ")] }]]
        ∧ w1.expanded = []
        ∧ w1.globalConfig = groceriesConfig :=
  submit_creates_one_record (exampleHost allowAll) { groceriesWorld with taskName := "  parsnips " }
    tblTable1 fldPurchased (by rfl) (by rfl) (by rfl)

/-- C8 (as amended): when the view resolves as well, the done field is not the primary
field, and the host permits creation and gives unused identifiers, each submission of the
create form adds exactly one row, at the end of the list, unchecked and labelled with the
submitted text, or "Unnamed record" when the text is empty; the rows before it stay as
they are, and n texts typed and submitted one after the other add n rows and emit n
mutations. -/
theorem submissions_append_rows (host : Host) (hfresh : host.Fresh) (w : World) (t : Table)
    (v : View) (df : Field)
    (ht : w.base.getTableByIdIfExists (w.globalConfig.get "selectedTableId") = some t)
    (hv : t.getViewByIdIfExists (w.globalConfig.get "selectedViewId") = some v)
    (hdf : t.getFieldByIdIfExists (w.globalConfig.get "selectedDoneFieldId") = some df)
    (hne : df.id ≠ t.primaryField.id)
    (hperm : t.hasPermissionToCreateRecord host.perm [(t.primaryField.id, Value.undefined)] = true) :
    (∃ w1, step host w Event.submit = .ok w1
      ∧ (w1.rows host).map TaskView.item
          = (w.rows host).map TaskView.item ++ [(strOr w.taskName "Unnamed record", false)]
      ∧ w1.mutations.length = w.mutations.length + 1)
    ∧ (w.taskName = "" → ∀ texts : List String,
        ∃ w1, run host w (submissions texts) = .ok w1
          ∧ (w1.rows host).map TaskView.item
              = (w.rows host).map TaskView.item
                ++ texts.map (fun s => (strOr s "Unnamed record", false))
          ∧ (w1.rows host).length = (w.rows host).length + texts.length
          ∧ w1.mutations.length = w.mutations.length + texts.length) := by
  have hready : w.Ready host df := ⟨t, v, ht, hv, hdf, hne, hperm⟩
  constructor
  · obtain ⟨w1, hstep, _, _, hrows, hlen⟩ := step_submit_rows host hfresh w df hready
    exact ⟨w1, hstep, hrows, hlen⟩
  · intro hempty texts
    obtain ⟨w1, hrun, hrows, hlen⟩ := run_submissions_rows host hfresh df texts w hready hempty
    refine ⟨w1, hrun, hrows, ?_, hlen⟩
    have h := congrArg List.length hrows
    simpa using h

theorem submissions_append_rows_witness :
    (∃ w1, step (exampleHost allowAll) groceriesWorld Event.submit = .ok w1
      ∧ (w1.rows (exampleHost allowAll)).map TaskView.item
          = (groceriesWorld.rows (exampleHost allowAll)).map TaskView.item
            ++ [(strOr groceriesWorld.taskName "Unnamed record", false)]
      ∧ w1.mutations.length = groceriesWorld.mutations.length + 1)
    ∧ ∃ w1, run (exampleHost allowAll) groceriesWorld
          (submissions ["brash teenaged carrots", "parsnips"]) = .ok w1
        ∧ (w1.rows (exampleHost allowAll)).map TaskView.item
            = (groceriesWorld.rows (exampleHost allowAll)).map TaskView.item
              ++ ["brash teenaged carrots", "parsnips"].map
                  (fun s => (strOr s "Unnamed record", false))
        ∧ (w1.rows (exampleHost allowAll)).length
            = (groceriesWorld.rows (exampleHost allowAll)).length
              + ["brash teenaged carrots", "parsnips"].length
        ∧ w1.mutations.length = groceriesWorld.mutations.length
            + ["brash teenaged carrots", "parsnips"].length :=
  ⟨(submissions_append_rows (exampleHost allowAll) (exampleHost_fresh allowAll) groceriesWorld
      tblTable1 gridView fldPurchased (by rfl) (by rfl) (by rfl) (by decide) (by rfl)).1,
    (submissions_append_rows (exampleHost allowAll) (exampleHost_fresh allowAll) groceriesWorld
      tblTable1 gridView fldPurchased (by rfl) (by rfl) (by rfl) (by decide) (by rfl)).2 rfl _⟩

/-- C8 (as stated) fails in two ways.  With the view deleted upstream the create form is
still shown and enabled, and a submission emits one creation but the list has no row before
and no row after.  With the primary field stored as the done field, the row added for the
text "parsnips" is checked. -/
theorem submission_without_new_unchecked_row :
    (TodoApp allowAll viewDeletedWorld.base viewDeletedWorld.globalConfig viewDeletedWorld.taskName).map
        (fun view => (view.rows.length, view.addTaskForm.map (fun form => form.buttonDisabled)))
      = .ok (0, some false)
    ∧ (step (exampleHost allowAll) viewDeletedWorld Event.submit).map
        (fun w1 => (w1.mutations.length, (w1.rows (exampleHost allowAll)).length)) = .ok (1, 0)
    ∧ (nameAsDoneWorld.rows (exampleHost allowAll)).map TaskView.item
        = [("carrots", true), ("baby carrots", true), ("elderly carrots", true)]
    ∧ (step (exampleHost allowAll) nameAsDoneWorld Event.submit).map
        (fun w1 => (w1.rows (exampleHost allowAll)).map TaskView.item)
      = .ok [("carrots", true), ("baby carrots", true), ("elderly carrots", true),
          ("parsnips", true)] := by
  refine ⟨by rfl, by rfl, by rfl, by rfl⟩

/-- C9: `onSubmit` always leaves the empty string as the input text, whatever the text was
and whatever the host does with the creation; so after a submission of the enabled form the
text state is empty, and a text typed and submitted next creates a record whose
primary-field value is exactly that text, with nothing of the earlier text in it. -/
theorem submit_clears_input (host : Host) (w : World) (t : Table) (df : Field)
    (ht : w.base.getTableByIdIfExists (w.globalConfig.get "selectedTableId") = some t)
    (hdf : t.getFieldByIdIfExists (w.globalConfig.get "selectedDoneFieldId") = some df)
    (hperm : t.hasPermissionToCreateRecord host.perm [(t.primaryField.id, Value.undefined)] = true) :
    (∀ (t0 : Table) (s : String), (AddTaskForm.onSubmit t0 s).2 = "")
      ∧ ∃ w1, step host w Event.submit = .ok w1
        ∧ w1.taskName = ""
        ∧ ∀ next : String, ∃ w2, run host w1 [Event.typeText next, Event.submit] = .ok w2
          ∧ w2.taskName = ""
          ∧ w2.mutations = w1.mutations ++ [Mutation.createMultipleRecords t.id
              [{ id := some (host.newRecordId w1.base)
                 cellValuesByFieldId := [(t.primaryField.id, Value.str next)] }]] := by
  refine ⟨fun _ _ => rfl, _, step_submit host w t df ht hdf hperm, rfl, ?_⟩
  intro next
  have ht1 := getTable_create w.base (w.globalConfig.get "selectedTableId") t
    { id := some (host.newRecordId w.base)
      cellValuesByFieldId := [(t.primaryField.id, Value.str w.taskName)] } ht
  obtain ⟨hdf1, hperm1⟩ := create_keeps_form host t df
    { id := some (host.newRecordId w.base)
      cellValuesByFieldId := [(t.primaryField.id, Value.str w.taskName)] } _ hdf hperm
  refine ⟨_, run_type_submit host
    { base := w.base.applyMutation (.createMultipleRecords t.id
          [{ id := some (host.newRecordId w.base)
             cellValuesByFieldId := [(t.primaryField.id, Value.str w.taskName)] }])
      globalConfig := w.globalConfig
      taskName := ""
      mutations := w.mutations ++ [.createMultipleRecords t.id
          [{ id := some (host.newRecordId w.base)
             cellValuesByFieldId := [(t.primaryField.id, Value.str w.taskName)] }]]
      expanded := w.expanded } _ df next ht1 hdf1 hperm1 rfl, rfl, ?_⟩
  simp [createRecord_id, createRecord_primaryField]

theorem submit_clears_input_witness :
    (∀ (t0 : Table) (s : String), (AddTaskForm.onSubmit t0 s).2 = "")
      ∧ ∃ w1, step (exampleHost allowAll) { groceriesWorld with taskName := "brash teenaged carrots" }
          Event.submit = .ok w1
        ∧ w1.taskName = ""
        ∧ ∀ next : String, ∃ w2,
            run (exampleHost allowAll) w1 [Event.typeText next, Event.submit] = .ok w2
          ∧ w2.taskName = ""
          ∧ w2.mutations = w1.mutations ++ [Mutation.createMultipleRecords tblTable1.id
              [{ id := some ((exampleHost allowAll).newRecordId w1.base)
                 cellValuesByFieldId := [(tblTable1.primaryField.id, Value.str next)] }]] :=
  submit_clears_input (exampleHost allowAll) { groceriesWorld with taskName := "brash teenaged carrots" }
    tblTable1 fldPurchased (by rfl) (by rfl) (by rfl)

/-- C10: when the host denies every record mutation (creation, update, deletion), the
create form is disabled, input and button, every row has its checkbox and its delete button
disabled, and whatever the user does, the data of the base stays as it is and no record
mutation is emitted: an event on a row or on the form emits nothing at all, and a pick emits
at most a write to the shared configuration that the host permits. -/
theorem denied_mutations_never_attempted (host : Host) (w : World)
    (hdeny : ∀ m : Mutation, m.isRecordMutation = true → host.perm m = false) :
    ∃ view, TodoApp host.perm w.base w.globalConfig w.taskName = .ok view
      ∧ (∀ form, view.addTaskForm = some form →
          form.inputDisabled = true ∧ form.buttonDisabled = true)
      ∧ (∀ row ∈ view.rows, row.checkbox.disabled = true ∧ row.deleteButton.disabled = true)
      ∧ ∀ e : Event, ∃ w1, step host w e = .ok w1 ∧ w1.base = w.base
        ∧ ∃ emitted, w1.mutations = w.mutations ++ emitted
          ∧ (∀ m ∈ emitted, m.isRecordMutation = false ∧ host.perm m = true)
          ∧ (e.isPick = false → emitted = []) := by
  obtain ⟨view, hr⟩ := TodoApp_total host.perm w.base w.globalConfig w.taskName
  refine ⟨view, hr, ?_, ?_, ?_⟩
  · intro form hform
    obtain ⟨t, rfl⟩ := form_is_AddTaskForm _ _ _ _ _ hr form hform
    simp [AddTaskForm, Table.hasPermissionToCreateRecord,
      hdeny (Mutation.createMultipleRecords _ _) rfl]
  · intro row hrow
    obtain ⟨t, df, r, rfl⟩ := rows_are_taskRows _ _ _ _ _ hr row hrow
    simp [taskRow, Table.checkPermissionsForUpdateRecord, Table.hasPermissionToDeleteRecord,
      hdeny (Mutation.setMultipleRecordsCellValues _ _) rfl,
      hdeny (Mutation.deleteMultipleRecords _ _) rfl]
  · intro e
    obtain ⟨w1, hd, hb, emitted, hm, hall⟩ := dispatch_denied host w view hdeny hr e
    refine ⟨_, step_of_dispatch host w w1 e view hr hd, ?_, emitted, ?_, hall⟩
    · split <;> simpa using hb
    · split <;> simpa using hm

theorem denied_mutations_never_attempted_witness :
    ∃ view, TodoApp onlyGlobalConfig fixture groceriesConfig "" = .ok view
      ∧ (∀ form, view.addTaskForm = some form →
          form.inputDisabled = true ∧ form.buttonDisabled = true)
      ∧ (∀ row ∈ view.rows, row.checkbox.disabled = true ∧ row.deleteButton.disabled = true)
      ∧ ∀ e : Event, ∃ w1, step (exampleHost onlyGlobalConfig) groceriesWorld e = .ok w1
        ∧ w1.base = fixture
        ∧ ∃ emitted, w1.mutations = [] ++ emitted
          ∧ (∀ m ∈ emitted, m.isRecordMutation = false ∧ onlyGlobalConfig m = true)
          ∧ (e.isPick = false → emitted = []) :=
  denied_mutations_never_attempted (exampleHost onlyGlobalConfig) groceriesWorld
    (fun m hm => by cases m <;> simp_all [Mutation.isRecordMutation, exampleHost, onlyGlobalConfig])

/-! ## Permissions and the rendered controls (C11 to C13) -/

theorem not_eq_true_iff_eq_false (b : Bool) : ((!b) = true) ↔ b = false := by
  cases b <;> simp

/-- C11: in every rendered list each control of a row is disabled exactly when the host's
check for that control's action on that row's record denies: the checkbox iff the check for
updating the record's done field (value unspecified) has no permission, the delete button
iff the check for deleting the record has no permission.  The verdicts are per record: other
permissions that give the same two verdicts for this record give the same two flags for its
row, whatever they say about the other records. -/
theorem controls_disabled_iff_denied (perm : Permissions) (base : Base) (g : GlobalConfig)
    (s : String) (t : Table) (v : View) (df : Field)
    (ht : base.getTableByIdIfExists (g.get "selectedTableId") = some t)
    (hv : t.getViewByIdIfExists (g.get "selectedViewId") = some v)
    (hdf : t.getFieldByIdIfExists (g.get "selectedDoneFieldId") = some df) :
    ∃ view, TodoApp perm base g s = .ok view
      ∧ view.rows.length = v.selectRecords.length
      ∧ ∀ (i : Nat) (row : TaskView) (d : RecordData),
          view.rows[i]? = some row → v.selectRecords[i]? = some d →
            (row.checkbox.disabled = true ↔ perm (updateCheck t df d.id) = false)
            ∧ (row.deleteButton.disabled = true ↔ perm (deleteCheck t d.id) = false)
            ∧ ∀ other : Permissions,
                other (updateCheck t df d.id) = perm (updateCheck t df d.id) →
                other (deleteCheck t d.id) = perm (deleteCheck t d.id) →
                ∃ view1 row1, TodoApp other base g s = .ok view1
                  ∧ view1.rows[i]? = some row1
                  ∧ row1.checkbox.disabled = row.checkbox.disabled
                  ∧ row1.deleteButton.disabled = row.deleteButton.disabled := by
  obtain ⟨view, hr⟩ := TodoApp_total perm base g s
  have hrows := view_rows_of_resolved perm base g s t v df view ht hv hdf hr
  refine ⟨view, hr, by simp [hrows], ?_⟩
  intro i row d hrow hd
  simp only [hrows, List.getElem?_map, hd, Option.map_some', Option.some.injEq] at hrow
  subst hrow
  refine ⟨?_, ?_, ?_⟩
  · exact not_eq_true_iff_eq_false _
  · exact not_eq_true_iff_eq_false _
  · intro other hu hdel
    obtain ⟨view1, hr1⟩ := TodoApp_total other base g s
    have hrows1 := view_rows_of_resolved other base g s t v df view1 ht hv hdf hr1
    refine ⟨view1, taskRow other t df (Record.load t [t.primaryField, df] d), hr1,
      by simp only [hrows1, List.getElem?_map, hd, Option.map_some'], ?_, ?_⟩
    · show (!other (updateCheck t df d.id)) = !perm (updateCheck t df d.id)
      rw [hu]
    · show (!other (deleteCheck t d.id)) = !perm (deleteCheck t d.id)
      rw [hdel]

theorem controls_disabled_iff_denied_witness :
    (∃ view, TodoApp denyRecb fixture groceriesConfig "" = .ok view
      ∧ view.rows.length = gridView.selectRecords.length
      ∧ ∀ (i : Nat) (row : TaskView) (d : RecordData),
          view.rows[i]? = some row → gridView.selectRecords[i]? = some d →
            (row.checkbox.disabled = true ↔ denyRecb (updateCheck tblTable1 fldPurchased d.id) = false)
            ∧ (row.deleteButton.disabled = true ↔ denyRecb (deleteCheck tblTable1 d.id) = false)
            ∧ ∀ other : Permissions,
                other (updateCheck tblTable1 fldPurchased d.id)
                  = denyRecb (updateCheck tblTable1 fldPurchased d.id) →
                other (deleteCheck tblTable1 d.id) = denyRecb (deleteCheck tblTable1 d.id) →
                ∃ view1 row1, TodoApp other fixture groceriesConfig "" = .ok view1
                  ∧ view1.rows[i]? = some row1
                  ∧ row1.checkbox.disabled = row.checkbox.disabled
                  ∧ row1.deleteButton.disabled = row.deleteButton.disabled)
    ∧ (TodoApp denyRecb fixture groceriesConfig "").map (fun view =>
        view.rows.map (fun row => (row.key, row.checkbox.disabled, row.deleteButton.disabled)))
      = .ok [("reca", false, false), ("recb", true, true), ("recc", false, false)] :=
  ⟨controls_disabled_iff_denied denyRecb fixture groceriesConfig "" tblTable1 gridView fldPurchased
    (by rfl) (by rfl) (by rfl), by rfl⟩

/-- C12: the text input and the submit button of the create form are always disabled
together, and they are disabled exactly when the host denies the creation of a record
whose primary field is unset (`undefined`); the text typed does not enter the verdict.
This holds for the component and for the form of every rendered app. -/
theorem form_disabled_iff_create_denied (perm : Permissions) (base : Base) (g : GlobalConfig)
    (s : String) :
    (∀ (t : Table) (text : String),
        (AddTaskForm perm t text).inputDisabled = (AddTaskForm perm t text).buttonDisabled
        ∧ ((AddTaskForm perm t text).inputDisabled = true ↔ perm (createCheck t) = false)
        ∧ ∀ other : String,
            (AddTaskForm perm t other).inputDisabled = (AddTaskForm perm t text).inputDisabled
            ∧ (AddTaskForm perm t other).buttonDisabled = (AddTaskForm perm t text).buttonDisabled)
    ∧ ∃ view, TodoApp perm base g s = .ok view
      ∧ ∀ form, view.addTaskForm = some form →
          form.inputDisabled = form.buttonDisabled
          ∧ (form.inputDisabled = true ↔ perm (createCheck form.table) = false)
          ∧ ∀ other : String, ∃ view1 form1, TodoApp perm base g other = .ok view1
              ∧ view1.addTaskForm = some form1
              ∧ form1.inputDisabled = form.inputDisabled
              ∧ form1.buttonDisabled = form.buttonDisabled := by
  refine ⟨fun t text => ⟨rfl, not_eq_true_iff_eq_false _, fun _ => ⟨rfl, rfl⟩⟩, ?_⟩
  cases ht : base.getTableByIdIfExists (g.get "selectedTableId") with
  | none =>
    refine ⟨_, TodoApp_no_table perm base g s ht, ?_⟩
    intro form hform
    simp at hform
  | some t =>
    refine ⟨_, TodoApp_table perm base g s t ht, ?_⟩
    intro form hform
    cases hdf : t.getFieldByIdIfExists (g.get "selectedDoneFieldId") with
    | none => simp [hdf] at hform
    | some df =>
      simp only [hdf, Option.map_some', Option.some.injEq] at hform
      subst hform
      refine ⟨rfl, not_eq_true_iff_eq_false _, ?_⟩
      intro other
      refine ⟨_, AddTaskForm perm t other, TodoApp_table perm base g other t ht, ?_, rfl, rfl⟩
      simp only [hdf, Option.map_some']

/-- C13: the rows do not depend on the permissions: for the same base and configuration,
any two permission verdicts render the same number of rows, with the same keys, records,
labels and checked states in the same order, so only the disabled flags can differ; and
with a resolved selection there is a row for every record of the view under every verdict. -/
theorem rows_independent_of_permissions (perm other : Permissions) (base : Base)
    (g : GlobalConfig) (s : String) :
    ∃ view view1, TodoApp perm base g s = .ok view ∧ TodoApp other base g s = .ok view1
      ∧ view1.rows.length = view.rows.length
      ∧ view1.rows.map (fun row => (row.key, row.props.record, row.label, row.checkbox.checked))
          = view.rows.map (fun row => (row.key, row.props.record, row.label, row.checkbox.checked))
      ∧ ∀ (t : Table) (v : View) (df : Field),
          base.getTableByIdIfExists (g.get "selectedTableId") = some t →
          t.getViewByIdIfExists (g.get "selectedViewId") = some v →
          t.getFieldByIdIfExists (g.get "selectedDoneFieldId") = some df →
            view.rows.length = v.selectRecords.length
            ∧ view1.rows.length = v.selectRecords.length := by
  cases ht : base.getTableByIdIfExists (g.get "selectedTableId") with
  | none =>
    refine ⟨_, _, TodoApp_no_table perm base g s ht, TodoApp_no_table other base g s ht,
      rfl, rfl, ?_⟩
    intro t v df h
    cases h
  | some t =>
    obtain ⟨view, hr⟩ := TodoApp_total perm base g s
    obtain ⟨view1, hr1⟩ := TodoApp_total other base g s
    cases hdf : t.getFieldByIdIfExists (g.get "selectedDoneFieldId") with
    | none =>
      have h0 : view.rows = [] := by
        rw [TodoApp_table perm base g s t ht] at hr
        cases hr
        simp [TodoAppView.rows, hdf]
      have h1 : view1.rows = [] := by
        rw [TodoApp_table other base g s t ht] at hr1
        cases hr1
        simp [TodoAppView.rows, hdf]
      refine ⟨view, view1, hr, hr1, by rw [h0, h1], by rw [h0, h1], ?_⟩
      intro t2 v df h2 _ h4
      cases h2
      rw [hdf] at h4
      cases h4
    | some df =>
      cases hv : t.getViewByIdIfExists (g.get "selectedViewId") with
      | none =>
        have h0 : view.rows = [] := by
          rw [TodoApp_table perm base g s t ht] at hr
          cases hr
          simp [TodoAppView.rows, hdf, hv]
        have h1 : view1.rows = [] := by
          rw [TodoApp_table other base g s t ht] at hr1
          cases hr1
          simp [TodoAppView.rows, hdf, hv]
        refine ⟨view, view1, hr, hr1, by rw [h0, h1], by rw [h0, h1], ?_⟩
        intro t2 v df2 h2 h3 _
        cases h2
        rw [hv] at h3
        cases h3
      | some v =>
        have h0 := view_rows_of_resolved perm base g s t v df view ht hv hdf hr
        have h1 := view_rows_of_resolved other base g s t v df view1 ht hv hdf hr1
        refine ⟨view, view1, hr, hr1, by simp [h0, h1], ?_, ?_⟩
        · rw [h0, h1, List.map_map, List.map_map]
          rfl
        · intro t2 v2 df2 h2 h3 h4
          cases h2
          rw [hv] at h3
          cases h3
          simp [h0, h1]

/-! ## Expanding records, pickers and the schema (C14 to C19) -/

theorem resolved_of_row (host : Host) (w : World) (i : Nat) (row : TaskView)
    (hrow : (w.rows host)[i]? = some row) :
    ∃ t v df,
      w.base.getTableByIdIfExists (w.globalConfig.get "selectedTableId") = some t
      ∧ t.getViewByIdIfExists (w.globalConfig.get "selectedViewId") = some v
      ∧ t.getFieldByIdIfExists (w.globalConfig.get "selectedDoneFieldId") = some df := by
  cases ht : w.base.getTableByIdIfExists (w.globalConfig.get "selectedTableId") with
  | none =>
    simp [World.rows, TodoApp_no_table host.perm w.base w.globalConfig w.taskName ht,
      TodoAppView.rows] at hrow
  | some t =>
    cases hdf : t.getFieldByIdIfExists (w.globalConfig.get "selectedDoneFieldId") with
    | none =>
      simp [World.rows, TodoApp_table host.perm w.base w.globalConfig w.taskName t ht,
        TodoAppView.rows, hdf] at hrow
    | some df =>
      cases hv : t.getViewByIdIfExists (w.globalConfig.get "selectedViewId") with
      | none =>
        simp [rows_of_unresolved_view host w t ht hv] at hrow
      | some v => exact ⟨t, v, df, rfl, hv, hdf⟩

theorem step_clickLabel (host : Host) (w : World) (i : Nat) (row : TaskView)
    (hrow : (w.rows host)[i]? = some row) :
    step host w (Event.clickLabel i)
      = .ok { w with expanded := w.expanded ++ [row.props.record.id] } := by
  obtain ⟨t, v, df, ht, hv, hdf⟩ := resolved_of_row host w i row hrow
  obtain ⟨view, hr⟩ := TodoApp_total host.perm w.base w.globalConfig w.taskName
  have hrows : view.rows = w.rows host := by simp [World.rows, hr]
  have hdisp : dispatch host w view (Event.clickLabel i)
      = .ok { w with expanded := w.expanded ++ [row.props.record.id] } := by
    simp only [dispatch, hrows, hrow]
    rfl
  rw [step_of_dispatch host w _ _ view hr hdisp]
  rw [if_pos]
  exact formMounted_of_resolved host _ t df ht hdf

/-- C14: clicking the label of a row makes exactly one call, `expandRecord` for the record
of that row, so exactly one "expand record" signal with that record's identifier is
raised; no mutation is emitted and the data, the configuration and the input text stay as
they are. -/
theorem label_click_expands_record (host : Host) (w : World) (i : Nat) (row : TaskView)
    (hrow : (w.rows host)[i]? = some row) :
    Task.onClick row.props.record = [Call.expandRecord row.props.record.id]
      ∧ ∃ w1, step host w (Event.clickLabel i) = .ok w1
        ∧ w1.expanded = w.expanded ++ [row.props.record.id]
        ∧ w1.mutations = w.mutations
        ∧ w1.base = w.base
        ∧ w1.globalConfig = w.globalConfig
        ∧ w1.taskName = w.taskName :=
  ⟨rfl, _, step_clickLabel host w i row hrow, rfl, rfl, rfl, rfl, rfl⟩

theorem label_click_expands_record_witness :
    Task.onClick recaRow.props.record = [Call.expandRecord recaRow.props.record.id]
      ∧ ∃ w1, step (exampleHost onlyGlobalConfig) groceriesWorld (Event.clickLabel 0) = .ok w1
        ∧ w1.expanded = groceriesWorld.expanded ++ [recaRow.props.record.id]
        ∧ w1.mutations = groceriesWorld.mutations
        ∧ w1.base = groceriesWorld.base
        ∧ w1.globalConfig = groceriesWorld.globalConfig
        ∧ w1.taskName = groceriesWorld.taskName :=
  label_click_expands_record (exampleHost onlyGlobalConfig) groceriesWorld 0
    (taskRow onlyGlobalConfig tblTable1 fldPurchased recaRow.props.record) (by rfl)

theorem get_set_same (g : GlobalConfig) (key : String) (v : Value) :
    GlobalConfig.get (GlobalConfig.set g key v) key = v := by
  simp [GlobalConfig.get, GlobalConfig.set, List.lookup]

theorem get_set_other (g : GlobalConfig) (key other : String) (v : Value) (h : other ≠ key) :
    GlobalConfig.get (GlobalConfig.set g key v) other = GlobalConfig.get g other := by
  have hne : (other == key) = false := by simpa using h
  unfold GlobalConfig.get GlobalConfig.set
  rw [List.lookup_cons, hne]
  simp only
  rw [lookup_filter_key (fun x => x != key) other (by simpa using h)]

theorem picker_props (perm : Permissions) (base : Base) (g : GlobalConfig) (s : String)
    (view : TodoAppView) (hr : TodoApp perm base g s = .ok view) :
    view.tablePickerKey = "selectedTableId"
      ∧ view.viewPicker.globalConfigKey = "selectedViewId"
      ∧ view.fieldPicker.globalConfigKey = "selectedDoneFieldId"
      ∧ view.fieldPicker.allowedTypes = [FieldType.CHECKBOX]
      ∧ view.table = base.getTableByIdIfExists (g.get "selectedTableId")
      ∧ view.viewPicker.table = view.table
      ∧ view.fieldPicker.table = view.table := by
  cases ht : base.getTableByIdIfExists (g.get "selectedTableId") with
  | none =>
    rw [TodoApp_no_table perm base g s ht] at hr
    cases hr
    exact ⟨rfl, rfl, rfl, rfl, rfl, rfl, rfl⟩
  | some t =>
    rw [TodoApp_table perm base g s t ht] at hr
    cases hr
    exact ⟨rfl, rfl, rfl, rfl, rfl, rfl, rfl⟩

theorem step_pickTable (host : Host) (w : World) (tableId : String)
    (hexists : w.base.tables.any (fun t => t.id == tableId) = true)
    (hperm : host.perm (.setMultipleGlobalConfigPaths [("selectedTableId", Value.str tableId)]) = true) :
    ∃ w1, step host w (Event.pickTable tableId) = .ok w1
      ∧ w1.base = w.base
      ∧ w1.globalConfig = GlobalConfig.set w.globalConfig "selectedTableId" (Value.str tableId)
      ∧ w1.mutations = w.mutations
          ++ [.setMultipleGlobalConfigPaths [("selectedTableId", Value.str tableId)]]
      ∧ w1.expanded = w.expanded := by
  obtain ⟨view, hr⟩ := TodoApp_total host.perm w.base w.globalConfig w.taskName
  obtain ⟨hkey, _⟩ := picker_props _ _ _ _ view hr
  have hdisp : dispatch host w view (Event.pickTable tableId)
      = .ok (w.emit (.setMultipleGlobalConfigPaths [("selectedTableId", Value.str tableId)])) := by
    simp only [dispatch, hexists, if_true, hkey, pickerSet, hperm]
    rfl
  refine ⟨_, step_of_dispatch host w _ _ view hr hdisp, ?_, ?_, ?_, ?_⟩ <;> split <;> rfl

/-- C15: a pick in the table picker that the host permits writes exactly one entry of
the shared configuration, `selectedTableId`: one mutation setting that one path is
emitted, the stored `selectedViewId` and `selectedDoneFieldId` (and every other key) keep
their previous values, and the data of the base is untouched. -/
theorem table_pick_keeps_view_and_field (host : Host) (w : World) (tableId : String)
    (hexists : w.base.tables.any (fun t => t.id == tableId) = true)
    (hperm : host.perm (.setMultipleGlobalConfigPaths [("selectedTableId", Value.str tableId)]) = true) :
    ∃ w1, step host w (Event.pickTable tableId) = .ok w1
      ∧ w1.globalConfig.get "selectedTableId" = Value.str tableId
      ∧ w1.globalConfig.get "selectedViewId" = w.globalConfig.get "selectedViewId"
      ∧ w1.globalConfig.get "selectedDoneFieldId" = w.globalConfig.get "selectedDoneFieldId"
      ∧ (∀ key : String, key ≠ "selectedTableId" →
          w1.globalConfig.get key = w.globalConfig.get key)
      ∧ w1.mutations = w.mutations
          ++ [Mutation.setMultipleGlobalConfigPaths [("selectedTableId", Value.str tableId)]]
      ∧ w1.base = w.base := by
  obtain ⟨w1, hstep, hbase, hconfig, hmut, _⟩ := step_pickTable host w tableId hexists hperm
  refine ⟨w1, hstep, ?_, ?_, ?_, ?_, hmut, hbase⟩
  · rw [hconfig, get_set_same]
  · rw [hconfig, get_set_other _ _ _ _ (by decide)]
  · rw [hconfig, get_set_other _ _ _ _ (by decide)]
  · intro key hkey
    rw [hconfig, get_set_other _ _ _ _ hkey]

theorem table_pick_keeps_view_and_field_witness :
    ∃ w1, step (exampleHost onlyGlobalConfig) groceriesWorld (Event.pickTable "tblTable2") = .ok w1
      ∧ w1.globalConfig.get "selectedTableId" = Value.str "tblTable2"
      ∧ w1.globalConfig.get "selectedViewId" = groceriesWorld.globalConfig.get "selectedViewId"
      ∧ w1.globalConfig.get "selectedDoneFieldId"
          = groceriesWorld.globalConfig.get "selectedDoneFieldId"
      ∧ (∀ key : String, key ≠ "selectedTableId" →
          w1.globalConfig.get key = groceriesWorld.globalConfig.get key)
      ∧ w1.mutations = groceriesWorld.mutations
          ++ [Mutation.setMultipleGlobalConfigPaths [("selectedTableId", Value.str "tblTable2")]]
      ∧ w1.base = groceriesWorld.base :=
  table_pick_keeps_view_and_field (exampleHost onlyGlobalConfig) groceriesWorld "tblTable2"
    (by rfl) (by rfl)

theorem any_checkbox_iff (t : Table) (fieldId : String) :
    t.fields.any (fun f => f.id == fieldId && [FieldType.CHECKBOX].contains f.type) = true
      ↔ ∃ f, f ∈ t.fields ∧ f.id = fieldId ∧ f.type = FieldType.CHECKBOX := by
  simp [List.any_eq_true]

/-- C16: `TodoApp` always gives the field picker the allowed types `[CHECKBOX]`, and a pick
in that picker is accepted as the done-field selection only for a checkbox field: when the
picker's table has a field with the picked identifier whose type is CHECKBOX (and the host
permits the write) the identifier is stored as `selectedDoneFieldId`; when there is no such
field, for whatever table and field, nothing is written. -/
theorem field_pick_only_checkbox (host : Host) (w : World) (fieldId : String) :
    ∃ view w1, TodoApp host.perm w.base w.globalConfig w.taskName = .ok view
      ∧ view.fieldPicker.allowedTypes = [FieldType.CHECKBOX]
      ∧ view.fieldPicker.table
          = w.base.getTableByIdIfExists (w.globalConfig.get "selectedTableId")
      ∧ step host w (Event.pickField fieldId) = .ok w1
      ∧ ((∃ t f, view.fieldPicker.table = some t ∧ f ∈ t.fields ∧ f.id = fieldId
              ∧ f.type = FieldType.CHECKBOX) →
          host.perm (.setMultipleGlobalConfigPaths [("selectedDoneFieldId", Value.str fieldId)])
              = true →
          w1.globalConfig.get "selectedDoneFieldId" = Value.str fieldId
          ∧ w1.mutations = w.mutations
              ++ [Mutation.setMultipleGlobalConfigPaths [("selectedDoneFieldId", Value.str fieldId)]])
      ∧ ((¬ ∃ t f, view.fieldPicker.table = some t ∧ f ∈ t.fields ∧ f.id = fieldId
              ∧ f.type = FieldType.CHECKBOX) →
          w1.globalConfig = w.globalConfig ∧ w1.mutations = w.mutations) := by
  obtain ⟨view, hr⟩ := TodoApp_total host.perm w.base w.globalConfig w.taskName
  obtain ⟨_, _, hkey, hallowed, htable, _, hpt⟩ := picker_props _ _ _ _ view hr
  cases hpick : view.fieldPicker.table with
  | none =>
    have hdisp : dispatch host w view (Event.pickField fieldId) = .ok w := by
      simp only [dispatch, hpick]
      rfl
    refine ⟨view, _, hr, hallowed, by rw [← htable, ← hpt, hpick],
      step_of_dispatch host w _ _ view hr hdisp, ?_, ?_⟩
    · rintro ⟨t, f, h, _⟩
      rw [hpick] at h
      cases h
    · intro _
      constructor <;> split <;> rfl
  | some t =>
    by_cases hany : t.fields.any
        (fun f => f.id == fieldId && [FieldType.CHECKBOX].contains f.type) = true
    · by_cases hperm : host.perm
          (.setMultipleGlobalConfigPaths [("selectedDoneFieldId", Value.str fieldId)]) = true
      · have hdisp : dispatch host w view (Event.pickField fieldId) = .ok (w.emit
            (.setMultipleGlobalConfigPaths [("selectedDoneFieldId", Value.str fieldId)])) := by
          simp only [dispatch, hpick, hallowed, hany, if_true, hkey, pickerSet, hperm]
          rfl
        refine ⟨view, _, hr, hallowed, by rw [← htable, ← hpt, hpick],
          step_of_dispatch host w _ _ view hr hdisp, ?_, ?_⟩
        · intro _ _
          constructor
          · split <;> exact get_set_same _ _ _
          · split <;> rfl
        · intro hno
          exact absurd ((any_checkbox_iff t fieldId).1 hany)
            (fun ⟨f, hf⟩ => hno ⟨t, f, hpick, hf⟩)
      · have hdisp : dispatch host w view (Event.pickField fieldId) = .ok w := by
          simp only [dispatch, hpick, hallowed, hany, if_true, hkey, pickerSet, hperm]
          rfl
        refine ⟨view, _, hr, hallowed, by rw [← htable, ← hpt, hpick],
          step_of_dispatch host w _ _ view hr hdisp, ?_, ?_⟩
        · intro _ h
          exact absurd h hperm
        · intro hno
          exact absurd ((any_checkbox_iff t fieldId).1 hany)
            (fun ⟨f, hf⟩ => hno ⟨t, f, hpick, hf⟩)
    · have hdisp : dispatch host w view (Event.pickField fieldId) = .ok w := by
        simp only [dispatch, hpick, hallowed, hany]
        rfl
      refine ⟨view, _, hr, hallowed, by rw [← htable, ← hpt, hpick],
        step_of_dispatch host w _ _ view hr hdisp, ?_, ?_⟩
      · rintro ⟨t1, f, h, hf⟩ _
        rw [hpick] at h
        cases h
        exact absurd ((any_checkbox_iff t fieldId).2 ⟨f, hf⟩) hany
      · intro _
        constructor <;> split <;> rfl

theorem field_pick_examples :
    (step (exampleHost allowAll) noFieldWorld (Event.pickField "fldName")).map
        (fun w1 => (w1.globalConfig.get "selectedDoneFieldId", w1.mutations))
      = .ok (Value.undefined, [])
    ∧ (step (exampleHost allowAll) noFieldWorld (Event.pickField "fldPurchased")).map
        (fun w1 => (w1.globalConfig.get "selectedDoneFieldId", w1.mutations))
      = .ok (Value.str "fldPurchased",
          [Mutation.setMultipleGlobalConfigPaths [("selectedDoneFieldId", Value.str "fldPurchased")]]) := by
  refine ⟨by rfl, by rfl⟩

theorem schema_eq_map (b : Base) : b.schema = b.tables.map Table.schema :=
  rfl

theorem deleteRecords_schema (t : Table) (recordIds : List String) :
    (t.deleteRecords recordIds).schema = t.schema := by
  simp [Table.schema, Table.deleteRecords, Table.fields, List.map_map, Function.comp_def]

theorem createRecord_schema (t : Table) (d : RecordDef) : (t.createRecord d).schema = t.schema := by
  unfold Table.createRecord
  cases d.id with
  | none => rfl
  | some rid => simp [Table.schema, Table.fields, List.map_map, Function.comp_def]

theorem foldl_schema (f : Table → RecordDef → Table) (hf : ∀ t d, (f t d).schema = t.schema) :
    ∀ (l : List RecordDef) (t : Table), (l.foldl f t).schema = t.schema
  | [], _ => rfl
  | d :: l, t => by
      rw [List.foldl_cons, foldl_schema f hf l (f t d), hf]

theorem updateTable_schema (b : Base) (tableId : String) (f : Table → Table)
    (hf : ∀ t, (f t).schema = t.schema) : (b.updateTable tableId f).schema = b.schema := by
  simp only [schema_eq_map, Base.updateTable, List.map_map]
  apply List.map_congr_left
  intro t _
  simp only [Function.comp_apply]
  split
  · exact hf t
  · rfl

theorem applyMutation_schema (b : Base) (m : Mutation) (hm : m.isSchemaChange = false) :
    (b.applyMutation m).schema = b.schema := by
  cases m with
  | setMultipleRecordsCellValues tableId records =>
    exact updateTable_schema b tableId _ (fun t => foldl_schema Table.setRecordCellValues (fun _ _ => rfl) records t)
  | deleteMultipleRecords tableId recordIds =>
    exact updateTable_schema b tableId _ (fun t => deleteRecords_schema t recordIds)
  | createMultipleRecords tableId records =>
    exact updateTable_schema b tableId _ (fun t => foldl_schema Table.createRecord createRecord_schema records t)
  | setMultipleGlobalConfigPaths _ => rfl
  | changeSchema change => simp [Mutation.isSchemaChange] at hm

theorem emit_schema (w : World) (m : Mutation) (hm : m.isSchemaChange = false) :
    (w.emit m).base.schema = w.base.schema :=
  applyMutation_schema w.base m hm

theorem record_not_schema (m : Mutation) (hm : m.isRecordMutation = true) :
    m.isSchemaChange = false := by
  cases m <;> simp_all [Mutation.isRecordMutation, Mutation.isSchemaChange]

theorem perform_trace (host : Host) (w : World) (c : Call) (hc : c.changesSchema = false) :
    (host.perform w c).base.schema = w.base.schema
      ∧ ∃ emitted, (host.perform w c).mutations = w.mutations ++ emitted
        ∧ ∀ m ∈ emitted, m.isRecordMutation = true := by
  have one : ∀ m : Mutation, m.isRecordMutation = true →
      (w.emit m).base.schema = w.base.schema
        ∧ ∃ emitted, (w.emit m).mutations = w.mutations ++ emitted
          ∧ ∀ m1 ∈ emitted, m1.isRecordMutation = true := by
    intro m hm
    refine ⟨emit_schema w m (record_not_schema m hm), [m], rfl, ?_⟩
    intro m1 hm1
    simp only [List.mem_singleton] at hm1
    rw [hm1]
    exact hm
  cases c with
  | updateRecordAsync tableId recordId fields => exact one _ rfl
  | deleteRecordAsync tableId recordId => exact one _ rfl
  | createRecordAsync tableId fields => exact one _ rfl
  | expandRecord recordId => exact ⟨rfl, [], by simp [Host.perform], by simp⟩
  | changeSchema change => simp [Call.changesSchema] at hc

theorem performAll_trace (host : Host) :
    ∀ (calls : List Call) (w : World), (∀ c ∈ calls, c.changesSchema = false) →
      (host.performAll w calls).base.schema = w.base.schema
        ∧ ∃ emitted, (host.performAll w calls).mutations = w.mutations ++ emitted
          ∧ ∀ m ∈ emitted, m.isRecordMutation = true
  | [], w, _ => ⟨rfl, [], by simp [Host.performAll], by simp⟩
  | c :: calls, w, h => by
      obtain ⟨hs, emitted, hm, hall⟩ := perform_trace host w c (h c (List.mem_cons_self c calls))
      obtain ⟨hs1, emitted1, hm1, hall1⟩ := performAll_trace host calls (host.perform w c)
        (fun c1 hc1 => h c1 (List.mem_cons_of_mem c hc1))
      refine ⟨hs1.trans hs, emitted ++ emitted1, ?_, ?_⟩
      · show (host.performAll (host.perform w c) calls).mutations = _
        rw [hm1, hm, List.append_assoc]
      · intro m hmem
        rcases List.mem_append.1 hmem with h1 | h1
        · exact hall m h1
        · exact hall1 m h1

theorem onChange_calls (table : Option Table) (record : Record) (doneField : Option Field)
    (checked : Bool) (calls : List Call)
    (h : TaskDoneCheckbox.onChange table record doneField checked = .ok calls) :
    ∀ c ∈ calls, c.changesSchema = false := by
  cases table with
  | none => cases h
  | some t =>
    cases doneField with
    | none => cases h
    | some df =>
      cases h
      intro c hc
      simp only [List.mem_singleton] at hc
      rw [hc]
      rfl

theorem deleteClick_calls (table : Option Table) (record : Record) (calls : List Call)
    (h : TaskDeleteButton.onClick table record = .ok calls) :
    ∀ c ∈ calls, c.changesSchema = false := by
  cases table with
  | none => cases h
  | some t =>
    cases h
    intro c hc
    simp only [List.mem_singleton] at hc
    rw [hc]
    rfl

theorem onSubmit_calls (table : Table) (taskName : String) :
    ∀ c ∈ (AddTaskForm.onSubmit table taskName).1, c.changesSchema = false := by
  intro c hc
  simp only [AddTaskForm.onSubmit, List.mem_singleton] at hc
  rw [hc]
  rfl

theorem labelClick_calls (record : Record) : ∀ c ∈ Task.onClick record, c.changesSchema = false := by
  intro c hc
  simp only [Task.onClick, List.mem_singleton] at hc
  rw [hc]
  rfl

theorem pickerSet_trace (host : Host) (w : World) (key pickedId : String) :
    (pickerSet host w key pickedId).base.schema = w.base.schema
      ∧ ∃ emitted, (pickerSet host w key pickedId).mutations = w.mutations ++ emitted
        ∧ ∀ m ∈ emitted, m.isSchemaChange = false := by
  unfold pickerSet
  simp only
  split
  · refine ⟨emit_schema w _ rfl, [_], rfl, ?_⟩
    intro m hm
    simp only [List.mem_singleton] at hm
    rw [hm]
    rfl
  · exact ⟨rfl, [], by simp, by simp⟩

theorem dispatch_trace (host : Host) (w : World) (view : TodoAppView)
    (hr : TodoApp host.perm w.base w.globalConfig w.taskName = .ok view) (e : Event) :
    ∃ w1, dispatch host w view e = .ok w1 ∧ w1.base.schema = w.base.schema
      ∧ ∃ emitted, w1.mutations = w.mutations ++ emitted
        ∧ (∀ m ∈ emitted, m.isSchemaChange = false)
        ∧ (e.isPick = false → ∀ m ∈ emitted, m.isRecordMutation = true) := by
  have same : ∃ w1, (Except.ok w : Except String World) = .ok w1 ∧ w1.base.schema = w.base.schema
      ∧ ∃ emitted, w1.mutations = w.mutations ++ emitted
        ∧ (∀ m ∈ emitted, m.isSchemaChange = false)
        ∧ (e.isPick = false → ∀ m ∈ emitted, m.isRecordMutation = true) :=
    ⟨w, rfl, rfl, [], by simp, by simp, by simp⟩
  have handled : ∀ (calls : List Call) (s : String), (∀ c ∈ calls, c.changesSchema = false) →
      ∃ w1, (Except.ok { host.performAll w calls with taskName := s } : Except String World)
          = .ok w1
        ∧ w1.base.schema = w.base.schema
        ∧ ∃ emitted, w1.mutations = w.mutations ++ emitted
          ∧ (∀ m ∈ emitted, m.isSchemaChange = false)
          ∧ (e.isPick = false → ∀ m ∈ emitted, m.isRecordMutation = true) := by
    intro calls s hcalls
    obtain ⟨hs, emitted, hm, hall⟩ := performAll_trace host calls w hcalls
    exact ⟨_, rfl, hs, emitted, hm, fun m hmem => record_not_schema m (hall m hmem),
      fun _ => hall⟩
  have picked : ∀ key pickedId, e.isPick = true →
      ∃ w1, (Except.ok (pickerSet host w key pickedId) : Except String World) = .ok w1
        ∧ w1.base.schema = w.base.schema
        ∧ ∃ emitted, w1.mutations = w.mutations ++ emitted
          ∧ (∀ m ∈ emitted, m.isSchemaChange = false)
          ∧ (e.isPick = false → ∀ m ∈ emitted, m.isRecordMutation = true) := by
    intro key pickedId hp
    obtain ⟨hs, emitted, hm, hall⟩ := pickerSet_trace host w key pickedId
    exact ⟨_, rfl, hs, emitted, hm, hall, fun h => by simp [hp] at h⟩
  cases e with
  | clickCheckbox i =>
    simp only [dispatch]
    cases hrow : view.rows[i]? with
    | none => exact same
    | some row =>
      obtain ⟨t, df, r, rfl⟩ := rows_are_taskRows _ _ _ _ _ hr row (List.getElem?_mem hrow)
      simp only []
      split
      · exact same
      · have hcalls : TaskDoneCheckbox.onChange (taskRow host.perm t df r).props.table
            (taskRow host.perm t df r).props.record (taskRow host.perm t df r).props.doneField
            (!(taskRow host.perm t df r).checkbox.checked)
            = .ok [Call.updateRecordAsync t.id r.id
                [(df.id, Value.bool (!(taskRow host.perm t df r).checkbox.checked))]] := rfl
        rw [hcalls]
        exact handled _ w.taskName (onChange_calls _ _ _ _ _ hcalls)
  | clickDelete i =>
    simp only [dispatch]
    cases hrow : view.rows[i]? with
    | none => exact same
    | some row =>
      obtain ⟨t, df, r, rfl⟩ := rows_are_taskRows _ _ _ _ _ hr row (List.getElem?_mem hrow)
      simp only []
      split
      · exact same
      · have hcalls : TaskDeleteButton.onClick (taskRow host.perm t df r).props.table
            (taskRow host.perm t df r).props.record
            = .ok [Call.deleteRecordAsync t.id r.id] := rfl
        rw [hcalls]
        exact handled _ w.taskName (deleteClick_calls _ _ _ hcalls)
  | clickLabel i =>
    simp only [dispatch]
    cases hrow : view.rows[i]? with
    | none => exact same
    | some row => exact handled _ w.taskName (labelClick_calls row.props.record)
  | typeText chars =>
    simp only [dispatch]
    cases hform : view.addTaskForm with
    | none => exact same
    | some form =>
      simp only []
      split
      · exact same
      · exact handled [] _ (by simp)
  | submit =>
    simp only [dispatch]
    cases hform : view.addTaskForm with
    | none => exact same
    | some form =>
      simp only []
      split
      · exact same
      · exact handled _ _ (onSubmit_calls form.table form.value)
  | pickTable tableId =>
    simp only [dispatch]
    split
    · exact picked _ _ rfl
    · exact same
  | pickView viewId =>
    simp only [dispatch]
    split
    · split
      · exact picked _ _ rfl
      · exact same
    · exact same
  | pickField fieldId =>
    simp only [dispatch]
    split
    · split
      · exact picked _ _ rfl
      · exact same
    · exact same

theorem step_trace (host : Host) (w : World) (e : Event) :
    ∃ w1, step host w e = .ok w1 ∧ w1.base.schema = w.base.schema
      ∧ ∃ emitted, w1.mutations = w.mutations ++ emitted
        ∧ (∀ m ∈ emitted, m.isSchemaChange = false)
        ∧ (e.isPick = false → ∀ m ∈ emitted, m.isRecordMutation = true) := by
  obtain ⟨view, hr⟩ := TodoApp_total host.perm w.base w.globalConfig w.taskName
  obtain ⟨w1, hd, hs, emitted, hm, hall⟩ := dispatch_trace host w view hr e
  refine ⟨_, step_of_dispatch host w w1 e view hr hd, ?_, emitted, ?_, hall⟩
  · split <;> simpa using hs
  · split <;> simpa using hm

theorem run_schema (host : Host) :
    ∀ (events : List Event) (w : World),
      ∃ w1, run host w events = .ok w1 ∧ w1.base.schema = w.base.schema
  | [], w => ⟨w, rfl, rfl⟩
  | e :: events, w => by
      obtain ⟨w1, hstep, hs, _⟩ := step_trace host w e
      obtain ⟨w2, hrun, hs2⟩ := run_schema host events w1
      refine ⟨w2, ?_, hs2.trans hs⟩
      simp only [run, bind, Except.bind, hstep]
      exact hrun

/-- C17: no handler of the widget asks the host for a change of the tables, views or
fields: the calls of `onChange` of `TaskDoneCheckbox`, of `onClick` of `TaskDeleteButton`,
of `onSubmit` of `AddTaskForm` and of the `onClick` of the label are record calls and
`expandRecord` only.  So whatever the user does (toggle a checkbox, delete a row, submit
the form, click a label, type, pick), the interaction succeeds, no mutation it emits
changes the schema, an action on a row or on the form emits record mutations only
(creation, cell-value update, deletion), and the tables of the base, with their
identifiers, names, fields and views, are the same afterwards; the same holds after any
sequence of interactions. -/
theorem widget_preserves_schema (host : Host) (w : World) :
    (∀ (table : Option Table) (record : Record) (doneField : Option Field) (checked : Bool)
        (calls : List Call),
        TaskDoneCheckbox.onChange table record doneField checked = .ok calls →
        ∀ c ∈ calls, c.changesSchema = false)
    ∧ (∀ (table : Option Table) (record : Record) (calls : List Call),
        TaskDeleteButton.onClick table record = .ok calls →
        ∀ c ∈ calls, c.changesSchema = false)
    ∧ (∀ (table : Table) (taskName : String),
        ∀ c ∈ (AddTaskForm.onSubmit table taskName).1, c.changesSchema = false)
    ∧ (∀ record : Record, ∀ c ∈ Task.onClick record, c.changesSchema = false)
    ∧ (∀ e : Event, ∃ w1, step host w e = .ok w1
        ∧ w1.base.schema = w.base.schema
        ∧ ∃ emitted, w1.mutations = w.mutations ++ emitted
          ∧ (∀ m ∈ emitted, m.isSchemaChange = false)
          ∧ (e.isPick = false → ∀ m ∈ emitted, m.isRecordMutation = true))
    ∧ ∀ events : List Event, ∃ w1, run host w events = .ok w1
        ∧ w1.base.schema = w.base.schema :=
  ⟨onChange_calls, deleteClick_calls, onSubmit_calls, labelClick_calls,
    fun e => step_trace host w e, fun events => run_schema host events w⟩

theorem schema_examples :
    fixture.schema
      = [ ("tblTable1", "Groceries", [fldName, fldPurchased],
            [("viwGridView", "Grid view"), ("viwGridView2", "Another grid view")]),
          ("tblTable2", "Porcelain dolls",
            [{ id := "fldName2", name := "Name of doll", type := FieldType.SINGLE_LINE_TEXT }],
            [("viwGridView2", "Grid view")]) ]
    ∧ (run (exampleHost allowAll) groceriesWorld
          [Event.clickCheckbox 0, Event.clickDelete 1, Event.typeText "parsnips", Event.submit,
            Event.clickLabel 0]).map (fun w1 => (w1.base.schema, w1.mutations.length))
        = .ok (fixture.schema, 3) := by
  refine ⟨by rfl, by rfl⟩

theorem schema_change_examples :
    fixture.applySchemaChange (SchemaChange.deleteTable "tblTable1") = tableDeletedBase
    ∧ fixture.applySchemaChange (SchemaChange.deleteView "tblTable1" "viwGridView")
        = viewDeletedBase
    ∧ fixture.applySchemaChange (SchemaChange.deleteField "tblTable1" "fldPurchased")
        = fieldDeletedBase
    ∧ (Host.perform (exampleHost allowAll) groceriesWorld
          (Call.changeSchema (SchemaChange.deleteField "tblTable1" "fldPurchased"))).base.schema
        = fieldDeletedBase.schema
    ∧ fieldDeletedBase.schema.map (fun t => t.2.2.1.length) = [1, 1]
    ∧ fixture.schema.map (fun t => t.2.2.1.length) = [2, 1]
    ∧ (Host.perform (exampleHost allowAll) groceriesWorld
          (Call.changeSchema (SchemaChange.createTable tblTable2))).base.schema.length = 3 := by
  refine ⟨by rfl, by rfl, by rfl, by rfl, by rfl, by rfl, by rfl⟩

theorem any_of_getTable (b : Base) (tableId : String) (t : Table)
    (ht : b.getTableByIdIfExists (Value.str tableId) = some t) :
    b.tables.any (fun t => t.id == tableId) = true := by
  have hmem : t ∈ b.tables := List.mem_of_find?_eq_some ht
  have hp := List.find?_some ht
  simp only [beq_iff_eq, Value.str.injEq] at hp
  simp only [List.any_eq_true, beq_iff_eq]
  exact ⟨t, hmem, hp⟩

theorem getView_none_of_no_id (t : Table) (x : Value)
    (h : ∀ vd ∈ t.views, Value.str vd.id ≠ x) : t.getViewByIdIfExists x = none := by
  unfold Table.getViewByIdIfExists
  rw [Option.map_eq_none', List.find?_eq_none]
  intro vd hvd hp
  exact h vd hvd (by simpa using hp)

theorem getField_none_of_no_id (t : Table) (x : Value)
    (h : ∀ f ∈ t.fields, Value.str f.id ≠ x) : t.getFieldByIdIfExists x = none := by
  unfold Table.getFieldByIdIfExists
  rw [List.find?_eq_none]
  intro f hf hp
  exact h f hf (by simpa using hp)

theorem rows_nil_of_absent (perm : Permissions) (base : Base) (g : GlobalConfig) (s : String)
    (view : TodoAppView) (hr : TodoApp perm base g s = .ok view)
    (h : view.view = none ∨ view.doneField = none) : view.rows = [] := by
  cases ht : base.getTableByIdIfExists (g.get "selectedTableId") with
  | none =>
    rw [TodoApp_no_table perm base g s ht] at hr
    cases hr
    rfl
  | some t =>
    rw [TodoApp_table perm base g s t ht] at hr
    cases hr
    simp only at h
    rcases h with h | h
    · cases hdf : t.getFieldByIdIfExists (g.get "selectedDoneFieldId") <;>
        simp [TodoAppView.rows, h, hdf]
    · simp [TodoAppView.rows, h]

theorem step_pickView (host : Host) (w : World) (t : Table) (viewId : String)
    (ht : w.base.getTableByIdIfExists (w.globalConfig.get "selectedTableId") = some t)
    (hexists : t.views.any (fun v => v.id == viewId) = true)
    (hperm : host.perm (.setMultipleGlobalConfigPaths [("selectedViewId", Value.str viewId)]) = true) :
    ∃ w1, step host w (Event.pickView viewId) = .ok w1
      ∧ w1.base = w.base
      ∧ w1.globalConfig = GlobalConfig.set w.globalConfig "selectedViewId" (Value.str viewId)
      ∧ w1.mutations = w.mutations
          ++ [.setMultipleGlobalConfigPaths [("selectedViewId", Value.str viewId)]] := by
  obtain ⟨view, hr⟩ := TodoApp_total host.perm w.base w.globalConfig w.taskName
  obtain ⟨_, hkey, _, _, htable, hvp, _⟩ := picker_props _ _ _ _ view hr
  have hpt : view.viewPicker.table = some t := by rw [hvp, htable, ht]
  have hdisp : dispatch host w view (Event.pickView viewId)
      = .ok (w.emit (.setMultipleGlobalConfigPaths [("selectedViewId", Value.str viewId)])) := by
    simp only [dispatch, hpt, hexists, if_true, hkey, pickerSet, hperm]
    rfl
  refine ⟨_, step_of_dispatch host w _ _ view hr hdisp, ?_, ?_, ?_⟩ <;> split <;> rfl

theorem step_pickField (host : Host) (w : World) (t : Table) (fieldId : String)
    (ht : w.base.getTableByIdIfExists (w.globalConfig.get "selectedTableId") = some t)
    (hexists : t.fields.any
      (fun f => f.id == fieldId && [FieldType.CHECKBOX].contains f.type) = true)
    (hperm : host.perm
      (.setMultipleGlobalConfigPaths [("selectedDoneFieldId", Value.str fieldId)]) = true) :
    ∃ w1, step host w (Event.pickField fieldId) = .ok w1
      ∧ w1.base = w.base
      ∧ w1.globalConfig = GlobalConfig.set w.globalConfig "selectedDoneFieldId" (Value.str fieldId)
      ∧ w1.mutations = w.mutations
          ++ [.setMultipleGlobalConfigPaths [("selectedDoneFieldId", Value.str fieldId)]] := by
  obtain ⟨view, hr⟩ := TodoApp_total host.perm w.base w.globalConfig w.taskName
  obtain ⟨_, _, hkey, hallowed, htable, _, hfp⟩ := picker_props _ _ _ _ view hr
  have hpt : view.fieldPicker.table = some t := by rw [hfp, htable, ht]
  have hdisp : dispatch host w view (Event.pickField fieldId)
      = .ok (w.emit (.setMultipleGlobalConfigPaths [("selectedDoneFieldId", Value.str fieldId)])) := by
    simp only [dispatch, hpt, hallowed, hexists, if_true, hkey, pickerSet, hperm]
    rfl
  refine ⟨_, step_of_dispatch host w _ _ view hr hdisp, ?_, ?_, ?_⟩ <;> split <;> rfl

theorem repick_view (host : Host) (w : World) (t : Table) (viewId : String) (v : View)
    (ht : w.base.getTableByIdIfExists (w.globalConfig.get "selectedTableId") = some t)
    (hv : t.getViewByIdIfExists (Value.str viewId) = some v)
    (hperm : host.perm (.setMultipleGlobalConfigPaths [("selectedViewId", Value.str viewId)]) = true) :
    ∃ w1 view, step host w (Event.pickView viewId) = .ok w1
      ∧ TodoApp host.perm w1.base w1.globalConfig w1.taskName = .ok view
      ∧ view.table = some t ∧ view.view = some v := by
  have hexists : t.views.any (fun v => v.id == viewId) = true := by
    unfold Table.getViewByIdIfExists at hv
    cases h : t.views.find? (fun v => Value.str v.id == Value.str viewId) with
    | none => simp [h] at hv
    | some vd =>
      have hp := List.find?_some h
      simp only [beq_iff_eq, Value.str.injEq] at hp
      simp only [List.any_eq_true, beq_iff_eq]
      exact ⟨vd, List.mem_of_find?_eq_some h, hp⟩
  obtain ⟨w1, hstep, hbase, hconfig, _⟩ := step_pickView host w t viewId ht hexists hperm
  have ht1 : w1.base.getTableByIdIfExists (w1.globalConfig.get "selectedTableId") = some t := by
    rw [hbase, hconfig, get_set_other _ _ _ _ (by decide)]
    exact ht
  refine ⟨w1, _, hstep, TodoApp_table host.perm w1.base w1.globalConfig w1.taskName t ht1, rfl, ?_⟩
  simp only [hconfig, get_set_same]
  exact hv

theorem repick_field (host : Host) (w : World) (t : Table) (fieldId : String) (f : Field)
    (ht : w.base.getTableByIdIfExists (w.globalConfig.get "selectedTableId") = some t)
    (hf : t.getFieldByIdIfExists (Value.str fieldId) = some f)
    (htype : f.type = FieldType.CHECKBOX)
    (hperm : host.perm
      (.setMultipleGlobalConfigPaths [("selectedDoneFieldId", Value.str fieldId)]) = true) :
    ∃ w1 view, step host w (Event.pickField fieldId) = .ok w1
      ∧ TodoApp host.perm w1.base w1.globalConfig w1.taskName = .ok view
      ∧ view.table = some t ∧ view.doneField = some f := by
  have hexists : t.fields.any
      (fun f => f.id == fieldId && [FieldType.CHECKBOX].contains f.type) = true := by
    rw [any_checkbox_iff]
    have hp := List.find?_some hf
    simp only [beq_iff_eq, Value.str.injEq] at hp
    exact ⟨f, List.mem_of_find?_eq_some hf, hp, htype⟩
  obtain ⟨w1, hstep, hbase, hconfig, _⟩ := step_pickField host w t fieldId ht hexists hperm
  have ht1 : w1.base.getTableByIdIfExists (w1.globalConfig.get "selectedTableId") = some t := by
    rw [hbase, hconfig, get_set_other _ _ _ _ (by decide)]
    exact ht
  refine ⟨w1, _, hstep, TodoApp_table host.perm w1.base w1.globalConfig w1.taskName t ht1, rfl, ?_⟩
  simp only [hconfig, get_set_same]
  exact hf

/-- C18 (as amended): after a permitted pick of another table the stored view and
done-field identifiers are the ones stored before, and `TodoApp` resolves each against the
new table by identifier alone: the view and the done field it works with are what the new
table has under the stale identifiers.  A stale identifier that no view (no field) of the
new table has does not resolve, the view (the done field) is absent, and with either one
absent the list is empty; a permitted pick of a view of the new table, or of a checkbox
field of it, makes that view, or that field, the one `TodoApp` works with. -/
theorem stale_selection_after_table_pick (host : Host) (w : World) (tableId : String)
    (t2 : Table)
    (ht2 : w.base.getTableByIdIfExists (Value.str tableId) = some t2)
    (hperm : host.perm (.setMultipleGlobalConfigPaths [("selectedTableId", Value.str tableId)]) = true) :
    ∃ w1 view, step host w (Event.pickTable tableId) = .ok w1
      ∧ TodoApp host.perm w1.base w1.globalConfig w1.taskName = .ok view
      ∧ w1.globalConfig.get "selectedViewId" = w.globalConfig.get "selectedViewId"
      ∧ w1.globalConfig.get "selectedDoneFieldId" = w.globalConfig.get "selectedDoneFieldId"
      ∧ view.table = some t2
      ∧ view.view = t2.getViewByIdIfExists (w.globalConfig.get "selectedViewId")
      ∧ view.doneField = t2.getFieldByIdIfExists (w.globalConfig.get "selectedDoneFieldId")
      ∧ ((∀ vd ∈ t2.views, Value.str vd.id ≠ w.globalConfig.get "selectedViewId") →
          view.view = none)
      ∧ ((∀ f ∈ t2.fields, Value.str f.id ≠ w.globalConfig.get "selectedDoneFieldId") →
          view.doneField = none)
      ∧ ((view.view = none ∨ view.doneField = none) → view.rows = [])
      ∧ (∀ (viewId : String) (v : View),
          t2.getViewByIdIfExists (Value.str viewId) = some v →
          host.perm (.setMultipleGlobalConfigPaths [("selectedViewId", Value.str viewId)]) = true →
          ∃ w2 view2, step host w1 (Event.pickView viewId) = .ok w2
            ∧ TodoApp host.perm w2.base w2.globalConfig w2.taskName = .ok view2
            ∧ view2.table = some t2 ∧ view2.view = some v)
      ∧ (∀ (fieldId : String) (f : Field),
          t2.getFieldByIdIfExists (Value.str fieldId) = some f →
          f.type = FieldType.CHECKBOX →
          host.perm (.setMultipleGlobalConfigPaths [("selectedDoneFieldId", Value.str fieldId)])
            = true →
          ∃ w2 view2, step host w1 (Event.pickField fieldId) = .ok w2
            ∧ TodoApp host.perm w2.base w2.globalConfig w2.taskName = .ok view2
            ∧ view2.table = some t2 ∧ view2.doneField = some f) := by
  obtain ⟨w1, hstep, hbase, hconfig, _, _⟩ :=
    step_pickTable host w tableId (any_of_getTable w.base tableId t2 ht2) hperm
  have hv : w1.globalConfig.get "selectedViewId" = w.globalConfig.get "selectedViewId" := by
    rw [hconfig, get_set_other _ _ _ _ (by decide)]
  have hf : w1.globalConfig.get "selectedDoneFieldId"
      = w.globalConfig.get "selectedDoneFieldId" := by
    rw [hconfig, get_set_other _ _ _ _ (by decide)]
  have ht : w1.base.getTableByIdIfExists (w1.globalConfig.get "selectedTableId") = some t2 := by
    rw [hbase, hconfig, get_set_same]
    exact ht2
  have hr := TodoApp_table host.perm w1.base w1.globalConfig w1.taskName t2 ht
  refine ⟨w1, _, hstep, hr, hv, hf, rfl, by rw [hv], by rw [hf], ?_, ?_, ?_,
    fun viewId v h hp => repick_view host w1 t2 viewId v ht h hp,
    fun fieldId f h hty hp => repick_field host w1 t2 fieldId f ht h hty hp⟩
  · intro h
    simp only [hv]
    exact getView_none_of_no_id t2 _ h
  · intro h
    simp only [hf]
    exact getField_none_of_no_id t2 _ h
  · exact rows_nil_of_absent _ _ _ _ _ hr

theorem stale_selection_after_table_pick_witness :
    ∃ w1 view, step (exampleHost allowAll) groceriesWorld (Event.pickTable "tblTable2") = .ok w1
      ∧ TodoApp allowAll w1.base w1.globalConfig w1.taskName = .ok view
      ∧ w1.globalConfig.get "selectedViewId" = groceriesWorld.globalConfig.get "selectedViewId"
      ∧ w1.globalConfig.get "selectedDoneFieldId"
          = groceriesWorld.globalConfig.get "selectedDoneFieldId"
      ∧ view.table = some tblTable2
      ∧ view.view = tblTable2.getViewByIdIfExists (groceriesWorld.globalConfig.get "selectedViewId")
      ∧ view.doneField
          = tblTable2.getFieldByIdIfExists (groceriesWorld.globalConfig.get "selectedDoneFieldId")
      ∧ ((∀ vd ∈ tblTable2.views,
            Value.str vd.id ≠ groceriesWorld.globalConfig.get "selectedViewId") →
          view.view = none)
      ∧ ((∀ f ∈ tblTable2.fields,
            Value.str f.id ≠ groceriesWorld.globalConfig.get "selectedDoneFieldId") →
          view.doneField = none)
      ∧ ((view.view = none ∨ view.doneField = none) → view.rows = [])
      ∧ (∀ (viewId : String) (v : View),
          tblTable2.getViewByIdIfExists (Value.str viewId) = some v →
          allowAll (.setMultipleGlobalConfigPaths [("selectedViewId", Value.str viewId)]) = true →
          ∃ w2 view2, step (exampleHost allowAll) w1 (Event.pickView viewId) = .ok w2
            ∧ TodoApp allowAll w2.base w2.globalConfig w2.taskName = .ok view2
            ∧ view2.table = some tblTable2 ∧ view2.view = some v)
      ∧ (∀ (fieldId : String) (f : Field),
          tblTable2.getFieldByIdIfExists (Value.str fieldId) = some f →
          f.type = FieldType.CHECKBOX →
          allowAll (.setMultipleGlobalConfigPaths [("selectedDoneFieldId", Value.str fieldId)])
            = true →
          ∃ w2 view2, step (exampleHost allowAll) w1 (Event.pickField fieldId) = .ok w2
            ∧ TodoApp allowAll w2.base w2.globalConfig w2.taskName = .ok view2
            ∧ view2.table = some tblTable2 ∧ view2.doneField = some f) :=
  stale_selection_after_table_pick (exampleHost allowAll) groceriesWorld "tblTable2" tblTable2
    (by rfl) (by rfl)

/-- C18 (as stated) fails on the fixture of the tests: both tables have a view with the
identifier `viwGridView2`.  With "Groceries", its view `viwGridView2` and "Purchased"
selected, picking "Porcelain dolls" leaves the stored view identifier, and it resolves to
the view "Grid view" of the new table: the view is not absent.  The done field is absent
and the list is empty. -/
theorem stale_view_resolves_in_new_table :
    (step (exampleHost allowAll) anotherGridWorld (Event.pickTable "tblTable2")).map
        (fun w1 => (w1.globalConfig.get "selectedTableId", w1.globalConfig.get "selectedViewId",
          w1.globalConfig.get "selectedDoneFieldId"))
      = .ok (Value.str "tblTable2", Value.str "viwGridView2", Value.str "fldPurchased")
    ∧ (TodoApp allowAll fixture
          [ ("selectedTableId", Value.str "tblTable2"),
            ("selectedViewId", Value.str "viwGridView2"),
            ("selectedDoneFieldId", Value.str "fldPurchased") ] "").map
        (fun view => (view.table.map (fun t => t.name), view.view.map (fun v => v.data.name),
          view.doneField, view.rows.length))
      = .ok (some "Porcelain dolls", some "Grid view", none, 0)
    ∧ (step (exampleHost allowAll) anotherGridWorld (Event.pickTable "tblTable2")).map
        (fun w1 => (TodoApp allowAll w1.base w1.globalConfig w1.taskName).toOption.map
          (fun view => (view.table.map (fun t => t.name), view.view.map (fun v => v.data.name),
            view.doneField, view.rows.length)))
      = .ok (some (some "Porcelain dolls", some "Grid view", none, 0)) := by
  refine ⟨by rfl, by rfl, by rfl⟩

theorem form_iff_table_and_field (perm : Permissions) (base : Base) (g : GlobalConfig)
    (s : String) :
    ∃ view, TodoApp perm base g s = .ok view
      ∧ view.table = base.getTableByIdIfExists (g.get "selectedTableId")
      ∧ view.doneField = (view.table.bind
          (fun t => t.getFieldByIdIfExists (g.get "selectedDoneFieldId")))
      ∧ view.addTaskForm.isSome = (view.table.isSome && view.doneField.isSome) := by
  cases ht : base.getTableByIdIfExists (g.get "selectedTableId") with
  | none => exact ⟨_, TodoApp_no_table perm base g s ht, rfl, rfl, rfl⟩
  | some t =>
    refine ⟨_, TodoApp_table perm base g s t ht, rfl, rfl, ?_⟩
    cases t.getFieldByIdIfExists (g.get "selectedDoneFieldId") <;> rfl

/-- C19: the create form is rendered exactly when the table and the done field both
resolve, whatever the view does.  With the table and the done field resolved and the view
unresolved, the list is empty, the form is still rendered, and a submission of the enabled
form emits one creation of a record on the table; the list is still empty afterwards. -/
theorem form_shown_without_view (host : Host) (w : World) (t : Table) (df : Field)
    (ht : w.base.getTableByIdIfExists (w.globalConfig.get "selectedTableId") = some t)
    (hv : t.getViewByIdIfExists (w.globalConfig.get "selectedViewId") = none)
    (hdf : t.getFieldByIdIfExists (w.globalConfig.get "selectedDoneFieldId") = some df)
    (hperm : t.hasPermissionToCreateRecord host.perm [(t.primaryField.id, Value.undefined)] = true) :
    (∀ (perm : Permissions) (base : Base) (g : GlobalConfig) (s : String),
        ∃ view, TodoApp perm base g s = .ok view
          ∧ view.table = base.getTableByIdIfExists (g.get "selectedTableId")
          ∧ view.doneField = (view.table.bind
              (fun t => t.getFieldByIdIfExists (g.get "selectedDoneFieldId")))
          ∧ view.addTaskForm.isSome = (view.table.isSome && view.doneField.isSome))
    ∧ (∃ view, TodoApp host.perm w.base w.globalConfig w.taskName = .ok view
        ∧ view.view = none
        ∧ view.rows = []
        ∧ view.addTaskForm = some (AddTaskForm host.perm t w.taskName)
        ∧ (AddTaskForm host.perm t w.taskName).buttonDisabled = false)
    ∧ ∃ w1, step host w Event.submit = .ok w1
        ∧ w1.mutations = w.mutations ++ [Mutation.createMultipleRecords t.id
            [{ id := some (host.newRecordId w.base)
               cellValuesByFieldId := [(t.primaryField.id, Value.str w.taskName)] }]]
        ∧ w1.rows host = [] := by
  refine ⟨form_iff_table_and_field, ?_, ?_⟩
  · refine ⟨_, TodoApp_table host.perm w.base w.globalConfig w.taskName t ht, ?_, ?_, ?_, ?_⟩
    · exact hv
    · simp [TodoAppView.rows, hv, hdf]
    · simp [hdf]
    · simp only [AddTaskForm, hperm, Bool.not_true]
  · refine ⟨_, step_submit host w t df ht hdf hperm, rfl, ?_⟩
    have ht1 := getTable_create w.base (w.globalConfig.get "selectedTableId") t
      { id := some (host.newRecordId w.base)
        cellValuesByFieldId := [(t.primaryField.id, Value.str w.taskName)] } ht
    have hv1 := getView_of_views_map t (t.createRecord
      { id := some (host.newRecordId w.base)
        cellValuesByFieldId := [(t.primaryField.id, Value.str w.taskName)] })
      (fun d => { d with recordIds := d.recordIds ++ [host.newRecordId w.base] })
      (fun _ => rfl) rfl (w.globalConfig.get "selectedViewId")
    rw [hv] at hv1
    exact rows_of_unresolved_view host
      { base := w.base.applyMutation (.createMultipleRecords t.id
          [{ id := some (host.newRecordId w.base)
             cellValuesByFieldId := [(t.primaryField.id, Value.str w.taskName)] }])
        globalConfig := w.globalConfig
        taskName := ""
        mutations := w.mutations ++ [.createMultipleRecords t.id
          [{ id := some (host.newRecordId w.base)
             cellValuesByFieldId := [(t.primaryField.id, Value.str w.taskName)] }]]
        expanded := w.expanded } _ ht1 hv1

theorem form_shown_without_view_witness :
    (∀ (perm : Permissions) (base : Base) (g : GlobalConfig) (s : String),
        ∃ view, TodoApp perm base g s = .ok view
          ∧ view.table = base.getTableByIdIfExists (g.get "selectedTableId")
          ∧ view.doneField = (view.table.bind
              (fun t => t.getFieldByIdIfExists (g.get "selectedDoneFieldId")))
          ∧ view.addTaskForm.isSome = (view.table.isSome && view.doneField.isSome))
    ∧ (∃ view, TodoApp allowAll viewDeletedWorld.base viewDeletedWorld.globalConfig
            viewDeletedWorld.taskName = .ok view
        ∧ view.view = none
        ∧ view.rows = []
        ∧ view.addTaskForm = some (AddTaskForm allowAll
            { tblTable1 with
              views := [{ id := "viwGridView2", name := "Another grid view", recordIds := [] }] }
            viewDeletedWorld.taskName)
        ∧ (AddTaskForm allowAll
            { tblTable1 with
              views := [{ id := "viwGridView2", name := "Another grid view", recordIds := [] }] }
            viewDeletedWorld.taskName).buttonDisabled = false)
    ∧ ∃ w1, step (exampleHost allowAll) viewDeletedWorld Event.submit = .ok w1
        ∧ w1.mutations = viewDeletedWorld.mutations ++ [Mutation.createMultipleRecords "tblTable1"
            [{ id := some ((exampleHost allowAll).newRecordId viewDeletedWorld.base)
               cellValuesByFieldId := [("fldName", Value.str viewDeletedWorld.taskName)] }]]
        ∧ w1.rows (exampleHost allowAll) = [] :=
  form_shown_without_view (exampleHost allowAll) viewDeletedWorld
    { tblTable1 with
      views := [{ id := "viwGridView2", name := "Another grid view", recordIds := [] }] }
    fldPurchased (by rfl) (by rfl) (by rfl) (by rfl)

end TodoList
